import Mathlib

/-!
Verification development for the trading-bot repository.

Shallow embedding of the order-lifecycle reconciliation engine of the
repository (spot variant `bot.py`, leveraged-futures variant
`futures_bot.py`, rounding utilities `utils.py`) and proofs about it.

Modelling conventions:
* Prices, quantities and balances are exact rationals (`ℚ`); the Python
  floats are modelled by exact arithmetic.
* Exchange timestamps are epoch values (`time`/`transactTime` in
  milliseconds, stored timestamps and "now" in seconds, as in the code).
* A raised-and-propagated Python exception is `Except.error ()`; code that
  the source wraps in `try/except` is total and returns the unmodified
  call on an inner failure, exactly where the source catches.
* The gateway (Binance client) is a record of response functions; a
  response of `Except.error ()` is that call raising.
* Every order placement / cancellation request issued to the gateway is
  recorded as a `BotAction`, and every order record returned by an order
  status query is recorded as an observation.
-/

/-- An exchange order record, with the fields the engine reads:
`orderId`, `status`, `time` / `transactTime` (ms), `executedQty`, `origQty`. -/
structure Order where
  orderId : Nat
  status : String
  time : Option Nat
  transactTime : Option Nat
  executedQty : ℚ
  origQty : ℚ
deriving Repr, DecidableEq

/-- A row of the `trading_calls` table (`models.TradingCall`), carrying the
columns used by both the spot and the futures variant: the spot variant uses
`open_order` / `close_order` / `completed` / `reason`, the futures variant
uses `open_order` / `take_profit_order` / `stop_loss_order` / `closed`. -/
structure TradingCall where
  id : Nat
  symbol : String
  side : String
  entry : List ℚ
  stop_loss : ℚ
  targets : List ℚ
  timestamp : Int
  open_order : Option Order
  close_order : Option Order
  take_profit_order : Option Order
  stop_loss_order : Option Order
  completed : Bool
  closed : Bool
  reason : Option String
  bragged : Bool
deriving Repr, DecidableEq

/-- The per-symbol constraints the engine extracts from
`exchange_info(symbol)["symbols"][0]`: the `LOT_SIZE` filter's `stepSize`
and the `PRICE_FILTER` filter's `tickSize`, parsed as exact rationals. -/
structure ExchangeInfo where
  stepSize : ℚ
  tickSize : ℚ
deriving Repr, DecidableEq

/-- The keyword arguments of a `new_order` request. -/
structure OrderParams where
  symbol : String
  side : String
  type : String
  quantity : ℚ
  price : Option ℚ
  stopPrice : Option ℚ
  timeInForce : Option String
  reduceOnly : Option String
deriving Repr, DecidableEq

/-- An external effect of one engine step: an order placement request, a
cancellation request (both tagged with the engine function that issued
them), or an order record returned by an order status query. -/
inductive BotAction where
  | newOrder (site : String) (params : OrderParams)
  | cancelOrder (site : String) (symbol : String) (orderId : Nat)
  | queryResp (order : Order)
deriving Repr, DecidableEq

deriving instance DecidableEq for Except

/-- The exchange gateway (Binance REST client) as a record of response
functions. `Except.error ()` is the client call raising an exception. -/
structure Gateway where
  avg_price : String → Except Unit ℚ
  mark_price : String → Except Unit ℚ
  exchange_info : String → Except Unit ExchangeInfo
  get_order : String → Nat → Except Unit Order
  new_order : OrderParams → Except Unit Order
  cancel_order : String → Nat → Except Unit Order
  my_trades : String → Nat → Except Unit (List ℚ)
  account_free_usdt : Except Unit ℚ

/-- Result of one engine step over the store: the final store contents, the
actions issued, and whether the step ran to completion (`ok = false` means
an uncaught exception aborted the remainder of the step and was caught by
the scheduler loop in `main`). -/
structure StepResult where
  store : List TradingCall
  actions : List BotAction
  ok : Bool
deriving Repr, DecidableEq

/-! ## Rounding utilities (`utils.py`, duplicated in `bot.py`)

`step_size_to_precision` is `-int(math.log10(float(step_size)))`; we model
it in exact arithmetic: `truncLog10Pos x` is the integer part (truncation
toward zero) of `log10 x` for a positive rational `x`, computed without
logarithms so that it evaluates by kernel reduction. -/

/-- Helper: `digitsLen fuel n` is `0` when `n < 10`, else one more than for `n / 10`;
with enough fuel it is the number of base-10 digits of `n` minus one. -/
def digitsLen : Nat → Nat → Nat
  | 0, _ => 0
  | fuel + 1, n => if n < 10 then 0 else digitsLen fuel (n / 10) + 1

/-- Computes `⌊log10 n⌋` for `n ≥ 1`, as a structurally recursive function. -/
def natLog10 (n : Nat) : Nat := digitsLen n n

/-- Least `k` (up to the fuel) with `1 ≤ x * 10 ^ k`, accumulator form. -/
def smallestScaleAux (x : ℚ) : Nat → Nat → Nat
  | 0, acc => acc
  | fuel + 1, acc => if 1 ≤ x * 10 ^ acc then acc else smallestScaleAux x fuel (acc + 1)

/-- For `0 < x`, the least `k` with `1 ≤ x * 10 ^ k` (`0` for `x ≥ 1`).
Fuel `x.den` suffices since `x ≥ 1 / x.den` and `10 ^ d ≥ d` for all `d`. -/
def smallestScale (x : ℚ) : Nat := smallestScaleAux x x.den 0

/-- The integer part, truncated toward zero, of `log10 x` for a positive
rational `x` — the exact-arithmetic value of Python's `int(math.log10(x))`.
For `x ≥ 1` this is `⌊log10 x⌋`; for `0 < x < 1` it is `-k` when
`x = 10⁻ᵏ` exactly and `-(k-1)` when `10⁻ᵏ < x < 10⁻ᵏ⁺¹`. -/
def truncLog10Pos (x : ℚ) : Int :=
  if 1 ≤ x then (natLog10 x.floor.toNat : Int)
  else
    let k := smallestScale x
    if x * 10 ^ k = 1 then -(k : Int) else -(k : Int) + 1

/-- Model of `round_down_to_precision(number, precision)`:
`math.floor(number * 10**precision) / 10**precision` in exact arithmetic. -/
def round_down_to_precision (number : ℚ) (precision : Int) : ℚ :=
  let factor : ℚ := 10 ^ precision
  (⌊number * factor⌋ : ℚ) / factor

/-- Model of `step_size_to_precision(step_size)`: `-int(math.log10(float(step_size)))`. -/
def step_size_to_precision (step_size : ℚ) : Int :=
  -(truncLog10Pos step_size)

/-- Model of `format_quantity(qty, exchange_info)`: round down to the precision derived
from the `LOT_SIZE` filter's `stepSize`. -/
def format_quantity (qty : ℚ) (info : ExchangeInfo) : ℚ :=
  round_down_to_precision qty (step_size_to_precision info.stepSize)

/-- Model of `format_price(price, exchange_info)`: round down to the precision derived
from the `PRICE_FILTER` filter's `tickSize`. -/
def format_price (price : ℚ) (info : ExchangeInfo) : ℚ :=
  round_down_to_precision price (step_size_to_precision info.tickSize)

/-! ## Generic helpers for the store and the step -/

/-- Python `a or b` on two optional timestamps: the left value unless it is
missing or `0` (falsy), else the right one. -/
def pyOr (a b : Option Nat) : Option Nat :=
  match a with
  | some t => if t = 0 then b else some t
  | none => b

/-- A list comprehension with a fallible predicate: first raised exception
propagates (Python comprehension semantics). -/
def filterE (p : TradingCall → Except Unit Bool) : List TradingCall → Except Unit (List TradingCall)
  | [] => .ok []
  | t :: ts => do
    let b ← p t
    let rest ← filterE p ts
    pure (if b then t :: rest else rest)

/-- Runner for `[f(t) for t in l]` where each call may raise and earlier results
(already committed to the store one by one) survive an abort: returns the
processed prefix, the accumulated actions, and whether all items succeeded. -/
def runEach (f : TradingCall → Except Unit (TradingCall × List BotAction)) :
    List TradingCall → List TradingCall × List BotAction × Bool
  | [] => ([], [], true)
  | t :: ts =>
    match f t with
    | .error _ => ([], [], false)
    | .ok r => (r.1 :: (runEach f ts).1, r.2 ++ (runEach f ts).2.1, (runEach f ts).2.2)

/-- Runner for `[f(t) for t in l]` for an infallible per-call operation, collecting the
updated calls and the actions. -/
def mapActs (f : TradingCall → TradingCall × List BotAction) :
    List TradingCall → List TradingCall × List BotAction
  | [] => ([], [])
  | t :: ts => ((f t).1 :: (mapActs f ts).1, (f t).2 ++ (mapActs f ts).2)

/-- Effect of `session.commit()` of a mutated call: overwrite the row with its id. -/
def saveCall (store : List TradingCall) (c : TradingCall) : List TradingCall :=
  store.map (fun x => if x.id = c.id then c else x)

/-- Save a batch of mutated calls. -/
def saveAll (store : List TradingCall) (cs : List TradingCall) : List TradingCall :=
  cs.foldl saveCall store

/-- Stable insertion into a list sorted by `le`. -/
def insertBy (le : TradingCall → TradingCall → Bool) (t : TradingCall) :
    List TradingCall → List TradingCall
  | [] => [t]
  | x :: xs => if le t x then t :: x :: xs else x :: insertBy le t xs

/-- Stable insertion sort (the `ORDER BY` of the store queries), structurally
recursive so concrete stores evaluate by kernel reduction. -/
def sortBy (le : TradingCall → TradingCall → Bool) : List TradingCall → List TradingCall
  | [] => []
  | x :: xs => insertBy le x (sortBy le xs)

/-- Comprehension body shared by the expiry filters: an order counts as
expired when its status is still `NEW` and its remote creation timestamp
(`order.get("time") or order.get("transactTime")`, in ms) is older than
`max_expiry_hours`; a missing timestamp raises (`None // 1000`). -/
def orderExpired (now max_expiry_hours : Int) (o : Order) : Except Unit Bool :=
  if o.status ≠ "NEW" then .ok false
  else
    match pyOr o.time o.transactTime with
    | none => .error ()
    | some ts => .ok (decide (3600 * max_expiry_hours < now - ((ts / 1000 : Nat) : Int)))

namespace Spot

/-- Constant `ORDER_SIZE = 100` — USD per trade (`bot.py`). -/
def ORDER_SIZE : ℚ := 100

/-- Constant `ORDER_EXPIRY_TIME_HOURS = 24 * 2` (`bot.py`). -/
def ORDER_EXPIRY_TIME_HOURS : Int := 24 * 2

/-- Model of `fetch_unseen_trades(latest_first, limit, lookback_hours)`: calls with no
entry order yet, created within the lookback window, not bragged, ordered by
id (descending when `latest_first`), truncated to `limit`. -/
def fetch_unseen_trades (store : List TradingCall) (now : Int)
    (latest_first : Bool) (limit : Nat) (lookback_hours : Int) : List TradingCall :=
  let filtered := store.filter (fun t =>
    t.open_order.isNone && decide (now - lookback_hours * 3600 ≤ t.timestamp) && !t.bragged)
  (sortBy (fun a b => if latest_first then b.id ≤ a.id else a.id ≤ b.id) filtered).take limit

/-- Store query: entry order placed, no exit order yet, not completed. -/
def get_pending_opening_limit_orders (store : List TradingCall) : List TradingCall :=
  store.filter (fun t => t.open_order.isSome && t.close_order.isNone && !t.completed)

/-- Store query: exit order placed, not completed. -/
def get_pending_closing_limit_orders (store : List TradingCall) : List TradingCall :=
  store.filter (fun t => t.close_order.isSome && !t.completed)

/-- Model of `BinanceAPI.filter_viable_trades` (spot): keeps a call iff the current
`avg_price` lies in `[stop_loss, targets[2]]` — the bounds are the call's
stop loss and third target, not the entry range. A missing `targets[2]`
(IndexError) or a failing price query propagates out of the generator. -/
def viable_pred (gw : Gateway) (trade : TradingCall) : Except Unit Bool :=
  match trade.targets.get? 2 with
  | none => .error ()
  | some max_price =>
    match gw.avg_price trade.symbol with
    | .error _ => .error ()
    | .ok current_price =>
      .ok (!(current_price < trade.stop_loss || current_price > max_price))

/-- The generator body: keep exactly the calls whose `viable_pred` is true. -/
def filter_viable_trades (gw : Gateway) (trades : List TradingCall) :
    Except Unit (List TradingCall) :=
  filterE (viable_pred gw) trades

/-- Model of `BinanceAPI.send_open_order`: no-op unless `open_order is None` and
`side == "BUY"`. The body is try-wrapped: any gateway failure (or an empty
entry list / zero entry price) leaves the call unchanged. On success the
re-queried confirmed record is persisted to `open_order`. The constant
`newOrderRespType = "FULL"` parameter is not modelled. -/
def send_open_order (gw : Gateway) (trade : TradingCall) : TradingCall × List BotAction :=
  if trade.open_order.isSome || trade.side ≠ "BUY" then (trade, [])
  else
    match gw.exchange_info trade.symbol with
    | .error _ => (trade, [])
    | .ok info =>
      match trade.entry.get? 0 with
      | none => (trade, [])
      | some e0 =>
        if e0 = 0 then (trade, [])
        else
          let params : OrderParams :=
            { symbol := trade.symbol, side := trade.side, type := "LIMIT",
              quantity := format_quantity (ORDER_SIZE / e0) info,
              price := some (format_price (trade.entry.foldl max e0) info),
              stopPrice := none, timeInForce := some "GTC", reduceOnly := none }
          match gw.new_order params with
          | .error _ => (trade, [.newOrder "send_open_order" params])
          | .ok response =>
            match gw.get_order trade.symbol response.orderId with
            | .error _ => (trade, [.newOrder "send_open_order" params])
            | .ok confirmed =>
              ({ trade with open_order := some confirmed },
               [.newOrder "send_open_order" params, .queryResp confirmed])

/-- Model of `BinanceAPI.send_open_orders`. -/
def send_open_orders (gw : Gateway) (trades : List TradingCall) :
    List TradingCall × List BotAction :=
  mapActs (send_open_order gw) trades

/-- Model of `BinanceAPI.update_opening_order_status`: re-query the entry order by id
(unwrapped — a failure propagates out of the step) and overwrite the cached
record when the reported status differs. -/
def update_opening_order_status (gw : Gateway) (trade : TradingCall) :
    Except Unit (TradingCall × List BotAction) :=
  match trade.open_order with
  | none => .error ()
  | some oo =>
    match gw.get_order trade.symbol oo.orderId with
    | .error _ => .error ()
    | .ok order =>
      if order.status ≠ oo.status then
        .ok ({ trade with open_order := some order }, [.queryResp order])
      else .ok (trade, [.queryResp order])

/-- Model of `BinanceAPI.update_closing_order_status`: re-query the exit order
(unwrapped); on a status change persist the new record and set
`completed = 1 if trade.completed or order["status"] == "FILLED" else 0`. -/
def update_closing_order_status (gw : Gateway) (trade : TradingCall) :
    Except Unit (TradingCall × List BotAction) :=
  match trade.close_order with
  | none => .error ()
  | some co =>
    match gw.get_order trade.symbol co.orderId with
    | .error _ => .error ()
    | .ok order =>
      if order.status ≠ co.status then
        .ok ({ trade with
                close_order := some order
                completed := trade.completed || order.status == "FILLED" },
             [.queryResp order])
      else .ok (trade, [.queryResp order])

/-- Model of `BinanceAPI.filter_filled_opening_orders`: keep the calls whose cached
entry-order status is `FILLED` (every caller passes calls with a non-null
`open_order`; the null branch is unreachable there). -/
def filter_filled_opening_orders (trades : List TradingCall) : List TradingCall :=
  trades.filter (fun t =>
    match t.open_order with
    | some o => o.status == "FILLED"
    | none => false)

/-- Model of `BinanceAPI.filter_expired_open_orders` (no try/except: a missing
timestamp aborts the step). -/
def filter_expired_open_orders (now max_expiry_hours : Int)
    (trades : List TradingCall) : Except Unit (List TradingCall) :=
  filterE (fun t =>
    match t.open_order with
    | none => .error ()
    | some oo => orderExpired now max_expiry_hours oo) trades

/-- Model of `BinanceAPI.filter_expired_close_orders`: same comprehension over
`close_order`, but try-wrapped — any failure yields `[]`. -/
def filter_expired_close_orders (now max_expiry_hours : Int)
    (trades : List TradingCall) : List TradingCall :=
  match filterE (fun t =>
    match t.close_order with
    | none => .error ()
    | some co => orderExpired now max_expiry_hours co) trades with
  | .ok l => l
  | .error _ => []

/-- Model of `BinanceAPI.filter_need_to_stop_loss`: keep the calls whose current
`avg_price` is strictly below `stop_loss` (price query unwrapped; the
cached order status is not consulted). -/
def stop_loss_pred (gw : Gateway) (t : TradingCall) : Except Unit Bool :=
  match gw.avg_price t.symbol with
  | .error _ => .error ()
  | .ok p => .ok (decide (p < t.stop_loss))

/-- Model of `BinanceAPI.filter_need_to_stop_loss` comprehension over `stop_loss_pred`. -/
def filter_need_to_stop_loss (gw : Gateway) (trades : List TradingCall) :
    Except Unit (List TradingCall) :=
  filterE (stop_loss_pred gw) trades

/-- Model of `BinanceAPI.send_close_order`: compute the net filled quantity
(`executedQty` minus the summed fill commissions), compare the current
price against the tick-rounded `targets[3]`, and submit a `MARKET` order if
the price has crossed the target, else a GTC `LIMIT` order at the target.
The body is try-wrapped; on success the raw response is persisted to
`close_order`. -/
def send_close_order (gw : Gateway) (trade : TradingCall) : TradingCall × List BotAction :=
  match gw.exchange_info trade.symbol with
  | .error _ => (trade, [])
  | .ok info =>
    match trade.open_order with
    | none => (trade, [])
    | some oo =>
      match gw.my_trades trade.symbol oo.orderId with
      | .error _ => (trade, [])
      | .ok commissions =>
        let quantity := format_quantity (oo.executedQty - commissions.sum) info
        match gw.avg_price trade.symbol with
        | .error _ => (trade, [])
        | .ok current_price =>
          match trade.targets.get? 3 with
          | none => (trade, [])
          | some t3 =>
            let target := format_price t3 info
            let params : OrderParams :=
              if target < current_price then
                { symbol := trade.symbol,
                  side := if trade.side == "BUY" then "SELL" else "BUY",
                  type := "MARKET", quantity := quantity, price := none,
                  stopPrice := none, timeInForce := none, reduceOnly := none }
              else
                { symbol := trade.symbol,
                  side := if trade.side == "BUY" then "SELL" else "BUY",
                  type := "LIMIT", quantity := quantity, price := some target,
                  stopPrice := none, timeInForce := some "GTC", reduceOnly := none }
            match gw.new_order params with
            | .error _ => (trade, [.newOrder "send_close_order" params])
            | .ok response =>
              ({ trade with close_order := some response },
               [.newOrder "send_close_order" params])

/-- Model of `BinanceAPI.send_close_orders`. -/
def send_close_orders (gw : Gateway) (trades : List TradingCall) :
    List TradingCall × List BotAction :=
  mapActs (send_close_order gw) trades

/-- Loop body of `BinanceAPI.send_cancel_open_orders`: cancel the entry
order; only on a successful cancellation set `completed = 1` and
`reason = "Open Order took too long to fill"` — the whole body is inside
one try, so a failed cancellation leaves the call untouched. -/
def send_cancel_open_order (gw : Gateway) (trade : TradingCall) :
    TradingCall × List BotAction :=
  match trade.open_order with
  | none => (trade, [])
  | some oo =>
    match gw.cancel_order trade.symbol oo.orderId with
    | .error _ => (trade, [.cancelOrder "send_cancel_open_orders" trade.symbol oo.orderId])
    | .ok _ =>
      ({ trade with
          completed := true
          reason := some "Open Order took too long to fill" },
       [.cancelOrder "send_cancel_open_orders" trade.symbol oo.orderId])

/-- Model of `BinanceAPI.send_cancel_open_orders`. -/
def send_cancel_open_orders (gw : Gateway) (trades : List TradingCall) :
    List TradingCall × List BotAction :=
  mapActs (send_cancel_open_order gw) trades

/-- The market-close request of `send_cancel_close_orders`: a `MARKET`
order for the full original exit quantity `close_order["origQty"]`, on the
opposite side of the call. -/
def market_close_params (trade : TradingCall) (co : Order) : OrderParams :=
  { symbol := trade.symbol,
    side := if trade.side == "BUY" then "SELL" else "BUY",
    type := "MARKET", quantity := co.origQty, price := none,
    stopPrice := none, timeInForce := none, reduceOnly := none }

/-- Loop body of `BinanceAPI.send_cancel_close_orders(trades, reason)`: try
to cancel the resting exit order (a failure is swallowed), then submit a
`MARKET` order for the full original exit quantity `close_order["origQty"]`;
on its success set `completed = 1` and `reason`. -/
def send_cancel_close_order (gw : Gateway) (reason : String) (trade : TradingCall) :
    TradingCall × List BotAction :=
  match trade.close_order with
  | none => (trade, [])
  | some co =>
    let cancelActs := [BotAction.cancelOrder "send_cancel_close_orders" trade.symbol co.orderId]
    match gw.new_order (market_close_params trade co) with
    | .error _ =>
      (trade, cancelActs ++ [.newOrder "send_cancel_close_orders" (market_close_params trade co)])
    | .ok _ =>
      ({ trade with completed := true, reason := some reason },
       cancelActs ++ [.newOrder "send_cancel_close_orders" (market_close_params trade co)])

/-- Model of `BinanceAPI.send_cancel_close_orders`. -/
def send_cancel_close_orders (gw : Gateway) (reason : String) (trades : List TradingCall) :
    List TradingCall × List BotAction :=
  mapActs (send_cancel_close_order gw reason) trades

/-- One spot engine step (`bot.step`), phase by phase; an uncaught gateway
exception ends the step with `ok = false` (caught by `main`'s loop),
keeping the mutations committed so far. -/
def step (gw : Gateway) (now : Int) (store : List TradingCall) : StepResult :=
  let r1 := runEach (update_opening_order_status gw) (get_pending_opening_limit_orders store)
  let store1 := saveAll store r1.1
  if !r1.2.2 then ⟨store1, r1.2.1, false⟩ else
  let filledOpening := filter_filled_opening_orders r1.1
  let r2 := runEach (update_closing_order_status gw) (get_pending_closing_limit_orders store1)
  let store2 := saveAll store1 r2.1
  if !r2.2.2 then ⟨store2, r1.2.1 ++ r2.2.1, false⟩ else
  let r3 := send_close_orders gw filledOpening
  let store3 := saveAll store2 r3.1
  match filter_expired_open_orders now ORDER_EXPIRY_TIME_HOURS
      (get_pending_opening_limit_orders store3) with
  | .error _ => ⟨store3, r1.2.1 ++ r2.2.1 ++ r3.2, false⟩
  | .ok expiredOpen =>
    let r4 := send_cancel_open_orders gw expiredOpen
    let store4 := saveAll store3 r4.1
    let expiredClose := filter_expired_close_orders now ORDER_EXPIRY_TIME_HOURS
        (get_pending_closing_limit_orders store4)
    let r5 := send_cancel_close_orders gw "Close order took too long to fill" expiredClose
    let store5 := saveAll store4 r5.1
    match filter_need_to_stop_loss gw (get_pending_closing_limit_orders store5) with
    | .error _ => ⟨store5, r1.2.1 ++ r2.2.1 ++ r3.2 ++ r4.2 ++ r5.2, false⟩
    | .ok slTrades =>
      let r6 := send_cancel_close_orders gw "stop loss" slTrades
      let store6 := saveAll store5 r6.1
      match gw.account_free_usdt with
      | .error _ => ⟨store6, r1.2.1 ++ r2.2.1 ++ r3.2 ++ r4.2 ++ r5.2 ++ r6.2, false⟩
      | .ok account_balance =>
        if ORDER_SIZE < account_balance then
          let unseen := fetch_unseen_trades store6 now true
              (account_balance / ORDER_SIZE).floor.toNat 12
          match filter_viable_trades gw unseen with
          | .error _ =>
            ⟨store6, r1.2.1 ++ r2.2.1 ++ r3.2 ++ r4.2 ++ r5.2 ++ r6.2, false⟩
          | .ok viable =>
            let r7 := send_open_orders gw viable
            ⟨saveAll store6 r7.1,
             r1.2.1 ++ r2.2.1 ++ r3.2 ++ r4.2 ++ r5.2 ++ r6.2 ++ r7.2, true⟩
        else ⟨store6, r1.2.1 ++ r2.2.1 ++ r3.2 ++ r4.2 ++ r5.2 ++ r6.2, true⟩

end Spot

namespace Futures

/-- Constant `ORDER_SIZE = 100` — USD per trade (`futures_bot.py`). -/
def ORDER_SIZE : ℚ := 100

/-- Constant `ORDER_EXPIRY_TIME_HOURS = 24` (`futures_bot.py`). -/
def ORDER_EXPIRY_TIME_HOURS : Int := 24

/-- Constant `TARGET_NUM = 3`: index of the active take-profit target. -/
def TARGET_NUM : Nat := 3

/-- Model of `fetch_unseen_calls`: same query as the spot variant. -/
def fetch_unseen_calls (store : List TradingCall) (now : Int)
    (latest_first : Bool) (limit : Nat) (lookback_hours : Int) : List TradingCall :=
  let filtered := store.filter (fun t =>
    t.open_order.isNone && decide (now - lookback_hours * 3600 ≤ t.timestamp) && !t.bragged)
  (sortBy (fun a b => if latest_first then b.id ≤ a.id else a.id ≤ b.id) filtered).take limit

/-- Model of `get_unfilled_opening_orders`: non-closed calls with an entry order
whose cached status is not `FILLED` (the status subscript is safe: the
query already requires `open_order` non-null). -/
def get_unfilled_opening_orders (store : List TradingCall) : List TradingCall :=
  (store.filter (fun t => t.open_order.isSome && !t.closed)).filter
    (fun t =>
      match t.open_order with
      | some o => o.status ≠ "FILLED"
      | none => false)

/-- Model of `get_unfilled_tpsl_orders` combines its two nullness clauses with
Python `or`:
`.filter(TradingCall.take_profit_order.is_not(None) or TradingCall.stop_loss_order.is_not(None))`.
`or` boolean-coerces its left operand; that operand is a SQLAlchemy binary
clause (`is_not`), and SQLAlchemy defines `__bool__` on clause objects to
raise `TypeError("Boolean value of this clause is not defined")` for every
operator other than `==`/`!=`. The call therefore raises while building
the query, before the store is consulted, for every store state. -/
def get_unfilled_tpsl_orders (_store : List TradingCall) :
    Except Unit (List TradingCall) :=
  .error ()

/-- Model of `BinanceAPI.filter_viable_trades` (futures): keeps a call iff the
current `mark_price` satisfies `entry[0] <= price <= entry[1]` (the chained
comparison evaluates `entry[1]` only when the first bound holds). A missing
entry bound (IndexError) or a failing price query propagates. -/
def viable_pred (gw : Gateway) (trade : TradingCall) : Except Unit Bool :=
  match gw.mark_price trade.symbol with
  | .error _ => .error ()
  | .ok current_price =>
    match trade.entry.get? 0 with
    | none => .error ()
    | some e0 =>
      if current_price < e0 then .ok false
      else
        match trade.entry.get? 1 with
        | none => .error ()
        | some e1 => .ok (decide (current_price ≤ e1))

/-- The generator body: keep exactly the calls whose `viable_pred` is true. -/
def filter_viable_trades (gw : Gateway) (trades : List TradingCall) :
    Except Unit (List TradingCall) :=
  filterE (viable_pred gw) trades

/-- One try-wrapped leg of `send_open_position`: submit the order, re-query
it by id, and on success persist the confirmed record with `assign`; any
failure leaves the call as it was. -/
def position_leg (gw : Gateway) (site : String) (params : OrderParams)
    (assign : TradingCall → Order → TradingCall) (trade : TradingCall) :
    TradingCall × List BotAction :=
  match gw.new_order params with
  | .error _ => (trade, [.newOrder site params])
  | .ok response =>
    match gw.get_order trade.symbol response.orderId with
    | .error _ => (trade, [.newOrder site params])
    | .ok confirmed => (assign trade confirmed, [.newOrder site params, .queryResp confirmed])

/-- Model of `BinanceAPI.send_open_position`: guarded only by `open_order is None`.
The margin-type/leverage changes are try-wrapped and state-irrelevant; the
`exchange_info` call and the quantity computation are NOT wrapped, so their
failure propagates out of the step. Then three independently try-wrapped
legs are submitted in sequence — entry `LIMIT`, stop-loss `STOP`,
take-profit `TAKE_PROFIT` — each persisting its re-queried confirmed record
to its own field; a leg's failure leaves only that field null. -/
def send_open_position (gw : Gateway) (trade : TradingCall) :
    Except Unit (TradingCall × List BotAction) :=
  if trade.open_order.isSome then .ok (trade, [])
  else
    match gw.exchange_info trade.symbol with
    | .error _ => .error ()
    | .ok info =>
      match trade.entry.get? 0 with
      | none => .error ()
      | some e0 =>
        if e0 = 0 then .error ()
        else
          let quantity := format_quantity (ORDER_SIZE / e0) info
          let flipside := if trade.side == "BUY" then "SELL" else "BUY"
          let r1 := position_leg gw "send_open_position.open"
            { symbol := trade.symbol, side := trade.side, type := "LIMIT",
              quantity := quantity,
              price := some (format_price (trade.entry.foldl max e0) info),
              stopPrice := none, timeInForce := some "GTC", reduceOnly := some "false" }
            (fun t o => { t with open_order := some o }) trade
          let r2 := position_leg gw "send_open_position.sl"
            { symbol := trade.symbol, side := flipside, type := "STOP",
              quantity := quantity,
              price := some (format_price trade.stop_loss info),
              stopPrice := some (format_price trade.stop_loss info),
              timeInForce := some "GTE_GTC", reduceOnly := some "true" }
            (fun t o => { t with stop_loss_order := some o }) r1.1
          let r3 :=
            match trade.targets.get? TARGET_NUM with
            | none => (r2.1, ([] : List BotAction))
            | some tgt => position_leg gw "send_open_position.tp"
                { symbol := trade.symbol, side := flipside, type := "TAKE_PROFIT",
                  quantity := quantity,
                  price := some (format_price tgt info),
                  stopPrice := some (format_price tgt info),
                  timeInForce := some "GTE_GTC", reduceOnly := some "true" }
                (fun t o => { t with take_profit_order := some o }) r2.1
          .ok (r3.1, r1.2 ++ r2.2 ++ r3.2)

/-- Model of `BinanceAPI.send_open_positions` (list comprehension over
`send_open_position`; an unwrapped failure aborts the comprehension). -/
def send_open_positions (gw : Gateway) (trades : List TradingCall) :
    List TradingCall × List BotAction × Bool :=
  runEach (send_open_position gw) trades

/-- Model of `BinanceAPI.update_opening_order_status` (futures) — same logic as the
spot variant. -/
def update_opening_order_status (gw : Gateway) (trade : TradingCall) :
    Except Unit (TradingCall × List BotAction) :=
  match trade.open_order with
  | none => .error ()
  | some oo =>
    match gw.get_order trade.symbol oo.orderId with
    | .error _ => .error ()
    | .ok order =>
      if order.status ≠ oo.status then
        .ok ({ trade with open_order := some order }, [.queryResp order])
      else .ok (trade, [.queryResp order])

/-- Model of `BinanceAPI.update_tp_sl_order_status`: re-query the take-profit order
(subscripting a null `take_profit_order` raises) and, on a status change,
persist `closed = 1 if trade.closed or status == "FILLED" else 0`; then the
same for the stop-loss order. All queries are unwrapped. -/
def update_tp_sl_order_status (gw : Gateway) (trade : TradingCall) :
    Except Unit (TradingCall × List BotAction) :=
  match trade.take_profit_order with
  | none => .error ()
  | some tpo =>
    match gw.get_order trade.symbol tpo.orderId with
    | .error _ => .error ()
    | .ok tp_order =>
      let trade1 :=
        if tp_order.status ≠ tpo.status then
          { trade with
              take_profit_order := some tp_order
              closed := trade.closed || tp_order.status == "FILLED" }
        else trade
      match trade1.stop_loss_order with
      | none => .error ()
      | some slo =>
        match gw.get_order trade.symbol slo.orderId with
        | .error _ => .error ()
        | .ok sl_order =>
          let trade2 :=
            if sl_order.status ≠ slo.status then
              { trade1 with
                  stop_loss_order := some sl_order
                  closed := trade1.closed || sl_order.status == "FILLED" }
            else trade1
          .ok (trade2, [.queryResp tp_order, .queryResp sl_order])

/-- Model of `BinanceAPI.filter_expired_open_orders` (futures; unwrapped). -/
def filter_expired_open_orders (now max_expiry_hours : Int)
    (trades : List TradingCall) : Except Unit (List TradingCall) :=
  filterE (fun t =>
    match t.open_order with
    | none => .error ()
    | some oo => orderExpired now max_expiry_hours oo) trades

/-- Model of `BinanceAPI.filter_expired_tpsl_orders`: both legs still `NEW` and the
take-profit leg older than the expiry threshold; the comprehension is
try-wrapped, so any failure (e.g. a null leg) yields `[]`. -/
def filter_expired_tpsl_orders (now max_expiry_hours : Int)
    (trades : List TradingCall) : List TradingCall :=
  match filterE (fun t =>
    match t.take_profit_order with
    | none => .error ()
    | some tpo =>
      if tpo.status ≠ "NEW" then .ok false
      else
        match t.stop_loss_order with
        | none => .error ()
        | some slo =>
          if slo.status ≠ "NEW" then .ok false
          else
            match pyOr tpo.time tpo.transactTime with
            | none => .error ()
            | some ts =>
              .ok (decide (3600 * max_expiry_hours < now - ((ts / 1000 : Nat) : Int)))) trades with
  | .ok l => l
  | .error _ => []

/-- Loop body of `BinanceAPI.send_cancel_open_orders` (futures): on a
successful cancellation the response replaces `open_order` and
`closed = 1`; a failure leaves the call untouched (one try block). -/
def send_cancel_open_order (gw : Gateway) (trade : TradingCall) :
    TradingCall × List BotAction :=
  match trade.open_order with
  | none => (trade, [])
  | some oo =>
    match gw.cancel_order trade.symbol oo.orderId with
    | .error _ => (trade, [.cancelOrder "send_cancel_open_orders" trade.symbol oo.orderId])
    | .ok response =>
      ({ trade with
          open_order := some response
          closed := true },
       [.cancelOrder "send_cancel_open_orders" trade.symbol oo.orderId])

/-- Model of `BinanceAPI.send_cancel_open_orders` (futures). -/
def send_cancel_open_orders (gw : Gateway) (trades : List TradingCall) :
    List TradingCall × List BotAction :=
  mapActs (send_cancel_open_order gw) trades

/-- Loop body of `BinanceAPI.send_cancel_tpsl_orders_and_close_position`:
three independent try blocks — cancel the take-profit leg, cancel the
stop-loss leg, then flatten the position with a `MARKET` order for
`open_order["origQty"]`; only the market order's success sets `closed = 1`. -/
def send_cancel_tpsl_and_close (gw : Gateway) (trade : TradingCall) :
    TradingCall × List BotAction :=
  let (t1, a1) :=
    match trade.take_profit_order with
    | none => (trade, ([] : List BotAction))
    | some tpo =>
      match gw.cancel_order trade.symbol tpo.orderId with
      | .error _ => (trade, [.cancelOrder "send_cancel_tpsl.tp" trade.symbol tpo.orderId])
      | .ok response =>
        ({ trade with take_profit_order := some response },
         [.cancelOrder "send_cancel_tpsl.tp" trade.symbol tpo.orderId])
  let (t2, a2) :=
    match t1.stop_loss_order with
    | none => (t1, ([] : List BotAction))
    | some slo =>
      match gw.cancel_order t1.symbol slo.orderId with
      | .error _ => (t1, [.cancelOrder "send_cancel_tpsl.sl" t1.symbol slo.orderId])
      | .ok response =>
        ({ t1 with stop_loss_order := some response },
         [.cancelOrder "send_cancel_tpsl.sl" t1.symbol slo.orderId])
  match t2.open_order with
  | none => (t2, a1 ++ a2)
  | some oo =>
    let params : OrderParams :=
      { symbol := t2.symbol,
        side := if t2.side == "BUY" then "SELL" else "BUY",
        type := "MARKET", quantity := oo.origQty, price := none,
        stopPrice := none, timeInForce := none, reduceOnly := none }
    match gw.new_order params with
    | .error _ => (t2, a1 ++ a2 ++ [.newOrder "send_cancel_tpsl.close" params])
    | .ok _ =>
      ({ t2 with closed := true }, a1 ++ a2 ++ [.newOrder "send_cancel_tpsl.close" params])

/-- Model of `BinanceAPI.send_cancel_tpsl_orders_and_close_position`. -/
def send_cancel_tpsl_orders_and_close_position (gw : Gateway) (trades : List TradingCall) :
    List TradingCall × List BotAction :=
  mapActs (send_cancel_tpsl_and_close gw) trades

/-- One futures engine step (`futures_bot.step`). The second phase queries
`get_unfilled_tpsl_orders`, which raises unconditionally, so every later
phase is dead code; it is nevertheless transcribed faithfully. -/
def step (gw : Gateway) (now : Int) (store : List TradingCall) : StepResult :=
  let r1 := runEach (update_opening_order_status gw) (get_unfilled_opening_orders store)
  let store1 := saveAll store r1.1
  if !r1.2.2 then ⟨store1, r1.2.1, false⟩ else
  match get_unfilled_tpsl_orders store1 with
  | .error _ => ⟨store1, r1.2.1, false⟩
  | .ok pendTpSl =>
    let r2 := runEach (update_tp_sl_order_status gw) pendTpSl
    let store2 := saveAll store1 r2.1
    if !r2.2.2 then ⟨store2, r1.2.1 ++ r2.2.1, false⟩ else
    match filter_expired_open_orders now ORDER_EXPIRY_TIME_HOURS
        (get_unfilled_opening_orders store2) with
    | .error _ => ⟨store2, r1.2.1 ++ r2.2.1, false⟩
    | .ok expiredOpen =>
      let r3 := send_cancel_open_orders gw expiredOpen
      let store3 := saveAll store2 r3.1
      match get_unfilled_tpsl_orders store3 with
      | .error _ => ⟨store3, r1.2.1 ++ r2.2.1 ++ r3.2, false⟩
      | .ok unfilledTpSl =>
        let expiredTpSl := filter_expired_tpsl_orders now ORDER_EXPIRY_TIME_HOURS unfilledTpSl
        let r4 := send_cancel_tpsl_orders_and_close_position gw expiredTpSl
        let store4 := saveAll store3 r4.1
        match gw.account_free_usdt with
        | .error _ => ⟨store4, r1.2.1 ++ r2.2.1 ++ r3.2 ++ r4.2, false⟩
        | .ok account_balance =>
          if ORDER_SIZE < account_balance then
            let unseen := fetch_unseen_calls store4 now true
                (account_balance / ORDER_SIZE).floor.toNat 12
            match filter_viable_trades gw unseen with
            | .error _ => ⟨store4, r1.2.1 ++ r2.2.1 ++ r3.2 ++ r4.2, false⟩
            | .ok viable =>
              let r5 := send_open_positions gw viable
              ⟨saveAll store4 r5.1, r1.2.1 ++ r2.2.1 ++ r3.2 ++ r4.2 ++ r5.2.1, r5.2.2⟩
          else ⟨store4, r1.2.1 ++ r2.2.1 ++ r3.2 ++ r4.2, true⟩

end Futures

/-! Theorems.

C9 — quantization (`utils.py`). -/

/-- Number of significant fractional digits of a decimal value, as the
spec's words define precision: the least `k` with `x * 10 ^ k` integral
(accumulator form, fuelled by the denominator). -/
def fracDigitsAux (x : ℚ) : Nat → Nat → Nat
  | 0, acc => acc
  | fuel + 1, acc => if (x * 10 ^ acc).den = 1 then acc else fracDigitsAux x fuel (acc + 1)

/-- The spec-side precision of a step/tick size: its count of significant
fractional digits (`"0.25"` ↦ 2, `"0.0010"` ↦ 3). Used only to state the
claim's reading, for comparison with `step_size_to_precision`. -/
def fracDigits (x : ℚ) : Nat := fracDigitsAux x x.den 0

lemma ten_pow_pos (k : ℕ) : (0 : ℚ) < 10 ^ k := pow_pos (by norm_num) k

lemma smallestScaleAux_spec (x : ℚ) (k : ℕ)
    (hk : 1 ≤ x * 10 ^ k) (hlt : ∀ j, j < k → ¬ 1 ≤ x * 10 ^ j) :
    ∀ fuel acc, acc ≤ k → k ≤ acc + fuel → smallestScaleAux x fuel acc = k := by
  intro fuel
  induction fuel with
  | zero =>
    intro acc h1 h2
    have hacc : acc = k := by omega
    simp [smallestScaleAux, hacc]
  | succ f ih =>
    intro acc h1 h2
    rcases Nat.lt_or_ge acc k with hlt1 | hge
    · have hno : ¬ 1 ≤ x * 10 ^ acc := hlt acc hlt1
      simp only [smallestScaleAux, if_neg hno]
      exact ih (acc + 1) (by omega) (by omega)
    · have hacc : acc = k := by omega
      subst hacc
      simp [smallestScaleAux, hk]

lemma one_le_mul_ten_pow_den (x : ℚ) (hx : 0 < x) : 1 ≤ x * 10 ^ x.den := by
  have hnum : (1 : ℤ) ≤ x.num := Rat.num_pos.mpr hx
  have hden : (0 : ℚ) < (x.den : ℚ) := by
    exact_mod_cast x.den_pos
  have hnum_eq : (x.num : ℚ) = x * x.den := by
    have hden0 : (x.den : ℚ) ≠ 0 := ne_of_gt hden
    exact (div_eq_iff hden0).mp (Rat.num_div_den x)
  have hx' : (1 : ℚ) / (x.den : ℚ) ≤ x := by
    rw [div_le_iff₀ hden]
    calc (1 : ℚ) ≤ (x.num : ℚ) := by exact_mod_cast hnum
    _ = x * x.den := hnum_eq
  have h10 : (x.den : ℚ) ≤ 10 ^ x.den := by
    have hp := Nat.lt_pow_self (a := 10) (by norm_num) x.den
    calc (x.den : ℚ) ≤ ((10 ^ x.den : ℕ) : ℚ) := by exact_mod_cast hp.le
    _ = 10 ^ x.den := by push_cast; ring
  calc (1 : ℚ) = (1 / (x.den : ℚ)) * (x.den : ℚ) := by field_simp
  _ ≤ (1 / (x.den : ℚ)) * 10 ^ x.den := by
      apply mul_le_mul_of_nonneg_left h10
      positivity
  _ ≤ x * 10 ^ x.den := by
      apply mul_le_mul_of_nonneg_right hx'
      positivity

lemma smallestScale_inv_pow (k : ℕ) : smallestScale ((1 : ℚ) / 10 ^ k) = k := by
  set x : ℚ := 1 / 10 ^ k with hxdef
  have hxpos : 0 < x := by rw [hxdef]; positivity
  have hxk : x * 10 ^ k = 1 := by
    rw [hxdef]; field_simp
  have hk1 : 1 ≤ x * 10 ^ k := le_of_eq hxk.symm
  have hlt : ∀ j, j < k → ¬ 1 ≤ x * 10 ^ j := by
    intro j hj hle
    have hpow : (10 : ℚ) ^ j < 10 ^ k := by
      apply pow_lt_pow_right₀ (by norm_num) hj
    have hxj : x * 10 ^ j = 10 ^ j / 10 ^ k := by
      rw [hxdef]; ring
    rw [hxj, le_div_iff₀ (ten_pow_pos k), one_mul] at hle
    exact absurd hle (not_le.mpr hpow)
  have hden : k ≤ x.den := by
    by_contra hcon
    push_neg at hcon
    exact hlt x.den hcon (one_le_mul_ten_pow_den x hxpos)
  exact smallestScaleAux_spec x k hk1 hlt x.den 0 (Nat.zero_le k) (by omega)

unseal Rat.inv Rat.mul Rat.add Rat.sub in
/-- C9 counterexample: for the step size `0.25` the claim's precision (the
count of significant fractional digits) is `2`, but the code's
`step_size_to_precision` is `-int(log10(0.25)) = 0`, so `format_quantity`
truncates `1.3` to the integer `1` instead of the claimed
`trunc₂(1.3) = 1.3`. -/
theorem C9_counterexample :
    fracDigits (1 / 4 : ℚ) = 2 ∧
    step_size_to_precision (1 / 4 : ℚ) = 0 ∧
    format_quantity (13 / 10) ⟨1 / 4, 1⟩ = 1 ∧
    round_down_to_precision (13 / 10) ((fracDigits (1 / 4 : ℚ) : ℤ)) = 13 / 10 ∧
    ((1 : ℚ) ≠ 13 / 10) := by
  refine ⟨by decide, by decide, by decide, by decide, by decide⟩

unseal Rat.inv Rat.mul Rat.add Rat.sub in
/-- C9 (amended): the precision the code derives from a step/tick size `s`
is `-int(log10 s)`; it equals the count of significant fractional digits
only for unit powers of ten — for every `k`, `s = 10⁻ᵏ` yields precision
`k` — and `round_down_to_precision` truncates toward zero onto that grid:
the result never exceeds the input, and is an integer multiple of
`10^(-p)`. -/
theorem C9_quantization :
    (∀ k : ℕ, step_size_to_precision ((1 : ℚ) / 10 ^ k) = k) ∧
    (∀ (x : ℚ) (p : ℤ), round_down_to_precision x p ≤ x) ∧
    (∀ (x : ℚ) (p : ℤ), ∃ n : ℤ, round_down_to_precision x p = (n : ℚ) / 10 ^ p) := by
  refine ⟨?_, ?_, ?_⟩
  · intro k
    match k with
    | 0 => decide
    | k + 1 =>
      have hlt : ¬ (1 : ℚ) ≤ 1 / 10 ^ (k + 1) := by
        rw [not_le, div_lt_one (ten_pow_pos (k + 1))]
        exact one_lt_pow₀ (by norm_num) (by omega)
      have hone : (1 : ℚ) / 10 ^ (k + 1) * 10 ^ (k + 1) = 1 := by
        field_simp
      unfold step_size_to_precision truncLog10Pos
      rw [if_neg hlt]
      simp only [smallestScale_inv_pow, hone, eq_self_iff_true, if_true]
      omega
  · intro x p
    have hf : (0 : ℚ) < 10 ^ p := by positivity
    unfold round_down_to_precision
    rw [div_le_iff₀ hf]
    exact Int.floor_le _
  · intro x p
    exact ⟨⌊x * 10 ^ p⌋, rfl⟩

/-! ### Concrete fixtures for witnesses and counterexamples -/

/-- A gateway whose every request succeeds with fixed responses. -/
def constGateway (price : ℚ) (info : ExchangeInfo) (resp : Order)
    (fills : List ℚ) (bal : ℚ) : Gateway :=
  { avg_price := fun _ => .ok price
    mark_price := fun _ => .ok price
    exchange_info := fun _ => .ok info
    get_order := fun _ _ => .ok resp
    new_order := fun _ => .ok resp
    cancel_order := fun _ _ => .ok resp
    my_trades := fun _ _ => .ok fills
    account_free_usdt := .ok bal }

/-- Tick/step constraints `0.01` / `0.01`. -/
def infoTick : ExchangeInfo := ⟨mkRat 1 100, mkRat 1 100⟩

/-! ### C7 — spot exit order type (`BinanceAPI.send_close_order`) -/

/-- C7: when the spot engine places the exit order, it compares the current
price with the tick-rounded `targets[3]`: strictly above the target it
submits a `MARKET` order, otherwise a GTC `LIMIT` order priced at the
target; the quantity is the net filled quantity, lot-rounded. -/
theorem C7_exit_order_type (gw : Gateway) (trade : TradingCall)
    (info : ExchangeInfo) (oo : Order) (fills : List ℚ) (p t3 : ℚ)
    (hinfo : gw.exchange_info trade.symbol = .ok info)
    (hoo : trade.open_order = some oo)
    (hfills : gw.my_trades trade.symbol oo.orderId = .ok fills)
    (hp : gw.avg_price trade.symbol = .ok p)
    (ht3 : trade.targets.get? 3 = some t3) :
    ∃ params : OrderParams,
      (Spot.send_close_order gw trade).2 = [.newOrder "send_close_order" params] ∧
      params.quantity = format_quantity (oo.executedQty - fills.sum) info ∧
      (format_price t3 info < p → params.type = "MARKET" ∧ params.price = none) ∧
      (¬ format_price t3 info < p →
        params.type = "LIMIT" ∧ params.price = some (format_price t3 info) ∧
        params.timeInForce = some "GTC") := by
  simp only [Spot.send_close_order, hinfo, hoo, hfills, hp, ht3]
  by_cases hc : format_price t3 info < p
  · rw [if_pos hc]
    refine ⟨{ symbol := trade.symbol,
              side := if trade.side == "BUY" then "SELL" else "BUY",
              type := "MARKET",
              quantity := format_quantity (oo.executedQty - fills.sum) info,
              price := none, stopPrice := none, timeInForce := none,
              reduceOnly := none }, ?_, rfl, fun _ => ⟨rfl, rfl⟩, fun hnc => absurd hc hnc⟩
    split <;> rfl
  · rw [if_neg hc]
    refine ⟨{ symbol := trade.symbol,
              side := if trade.side == "BUY" then "SELL" else "BUY",
              type := "LIMIT",
              quantity := format_quantity (oo.executedQty - fills.sum) info,
              price := some (format_price t3 info), stopPrice := none,
              timeInForce := some "GTC",
              reduceOnly := none }, ?_, rfl, fun hcc => absurd hcc hc, fun _ => ⟨rfl, rfl, rfl⟩⟩
    split <;> rfl

/-- Entry order record already `FILLED`, id 77, executed quantity 1. -/
def ord7 : Order := ⟨77, "FILLED", some 0, none, 1, 1⟩

/-- A call whose entry filled; `targets[3] = 110`. -/
def call7 : TradingCall :=
  { id := 7, symbol := "LTCUSDT", side := "BUY", entry := [100, 102],
    stop_loss := 90, targets := [104, 106, 108, 110], timestamp := 0,
    open_order := some ord7, close_order := none, take_profit_order := none,
    stop_loss_order := none, completed := false, closed := false,
    reason := none, bragged := false }

unseal Rat.inv Rat.mul Rat.add Rat.sub in
/-- C7 witness: at current price 105 (below the 110 target) and at 115
(above it), instantiating the theorem; the tick-rounded target is 110. -/
theorem C7_exit_order_type_witness :
    format_price 110 infoTick = 110 ∧
    (∃ params : OrderParams,
      (Spot.send_close_order (constGateway 105 infoTick ord7 [] 1000) call7).2 =
        [.newOrder "send_close_order" params] ∧
      params.quantity = format_quantity (ord7.executedQty - List.sum []) infoTick ∧
      (format_price 110 infoTick < 105 → params.type = "MARKET" ∧ params.price = none) ∧
      (¬ format_price 110 infoTick < 105 →
        params.type = "LIMIT" ∧ params.price = some (format_price 110 infoTick) ∧
        params.timeInForce = some "GTC")) ∧
    (∃ params : OrderParams,
      (Spot.send_close_order (constGateway 115 infoTick ord7 [] 1000) call7).2 =
        [.newOrder "send_close_order" params] ∧
      params.quantity = format_quantity (ord7.executedQty - List.sum []) infoTick ∧
      (format_price 110 infoTick < 115 → params.type = "MARKET" ∧ params.price = none) ∧
      (¬ format_price 110 infoTick < 115 →
        params.type = "LIMIT" ∧ params.price = some (format_price 110 infoTick) ∧
        params.timeInForce = some "GTC")) :=
  ⟨by decide,
   C7_exit_order_type (constGateway 105 infoTick ord7 [] 1000) call7 infoTick ord7 [] 105 110
     rfl rfl rfl rfl rfl,
   C7_exit_order_type (constGateway 115 infoTick ord7 [] 1000) call7 infoTick ord7 [] 115 110
     rfl rfl rfl rfl rfl⟩

/-! ### C1 — entry gate (`filter_viable_trades`, both variants) -/

lemma filterE_singleton (pred : TradingCall → Except Unit Bool) (t : TradingCall) (b : Bool)
    (h : pred t = .ok b) :
    filterE pred [t] = .ok (if b then [t] else []) := by
  simp only [filterE, h]
  rfl

/-- Count of entry-order placement requests among a list of actions. -/
def countEntryOrders (acts : List BotAction) : Nat :=
  acts.countP (fun a =>
    match a with
    | .newOrder site _ => site == "send_open_order"
    | _ => false)

/-- C1 (amended): the futures variant admits a call for entry exactly when
the current mark price lies in the closed entry range
`[entry[0], entry[1]]`; the spot variant instead admits it exactly when the
current price lies in `[stop_loss, targets[2]]` — the spot gate is not the
entry range. -/
theorem C1_entry_gate (gw : Gateway) (t : TradingCall) (p q e0 e1 mx : ℚ)
    (hmark : gw.mark_price t.symbol = .ok p)
    (he0 : t.entry.get? 0 = some e0) (he1 : t.entry.get? 1 = some e1)
    (havg : gw.avg_price t.symbol = .ok q)
    (hmx : t.targets.get? 2 = some mx) :
    Futures.filter_viable_trades gw [t] = .ok (if e0 ≤ p ∧ p ≤ e1 then [t] else []) ∧
    Spot.filter_viable_trades gw [t] = .ok (if t.stop_loss ≤ q ∧ q ≤ mx then [t] else []) := by
  constructor
  · have hpred : Futures.viable_pred gw t = .ok (decide (e0 ≤ p ∧ p ≤ e1)) := by
      simp only [Futures.viable_pred, hmark, he0, he1]
      by_cases h0 : p < e0
      · rw [if_pos h0]
        have hne : ¬ (e0 ≤ p ∧ p ≤ e1) := fun h => absurd h.1 (not_le.mpr h0)
        simp [hne]
      · rw [if_neg h0]
        have h0' : e0 ≤ p := not_lt.mp h0
        simp [h0']
    rw [Futures.filter_viable_trades, filterE_singleton _ _ _ hpred]
    simp only [decide_eq_true_eq]
  · have hpred : Spot.viable_pred gw t = .ok (decide (t.stop_loss ≤ q ∧ q ≤ mx)) := by
      simp only [Spot.viable_pred, hmx, havg]
      congr 1
      cases hd1 : decide (q < t.stop_loss) <;> cases hd2 : decide (q > mx) <;>
        simp_all [not_lt, decide_eq_true_eq]
    rw [Spot.filter_viable_trades, filterE_singleton _ _ _ hpred]
    simp only [decide_eq_true_eq]

/-- Entry-order record used in fresh-entry fixtures (`NEW`, id 11). -/
def ord1 : Order := ⟨11, "NEW", some 0, none, 0, 0⟩

/-- An unseen call: entry range `[10, 20]`, stop loss `5`, `targets[2] = 100`. -/
def call1 : TradingCall :=
  { id := 1, symbol := "LTCUSDT", side := "BUY", entry := [10, 20],
    stop_loss := 5, targets := [50, 60, 100, 110], timestamp := 0,
    open_order := none, close_order := none, take_profit_order := none,
    stop_loss_order := none, completed := false, closed := false,
    reason := none, bragged := false }

/-- C1 witness: at price 50 the futures gate (entry range `[10, 20]`)
rejects `call1` while the spot gate (`[5, 100]`) admits it. -/
theorem C1_entry_gate_witness :
    (Futures.filter_viable_trades (constGateway 50 infoTick ord1 [] 1000) [call1] =
      .ok (if (10 : ℚ) ≤ 50 ∧ (50 : ℚ) ≤ 20 then [call1] else []) ∧
     Spot.filter_viable_trades (constGateway 50 infoTick ord1 [] 1000) [call1] =
      .ok (if (5 : ℚ) ≤ 50 ∧ (50 : ℚ) ≤ 100 then [call1] else [])) ∧
    ¬ ((10 : ℚ) ≤ 50 ∧ (50 : ℚ) ≤ 20) ∧ ((5 : ℚ) ≤ 50 ∧ (50 : ℚ) ≤ 100) :=
  ⟨C1_entry_gate (constGateway 50 infoTick ord1 [] 1000) call1 50 50 10 20 100
     rfl rfl rfl rfl rfl,
   by norm_num, by norm_num, by norm_num⟩

unseal Rat.inv Rat.mul Rat.add Rat.sub in
/-- C1 counterexample: the current price 50 lies outside `call1`'s entry
range `[10, 20]`, yet one spot step submits an entry order for it (the spot
gate checks `[stop_loss, targets[2]] = [5, 100]` instead). -/
theorem C1_counterexample :
    call1.entry = [10, 20] ∧
    ¬ ((10 : ℚ) ≤ 50 ∧ (50 : ℚ) ≤ 20) ∧
    countEntryOrders
      (Spot.step (constGateway 50 infoTick ord1 [] 1000) 0 [call1]).actions = 1 := by
  refine ⟨rfl, by norm_num, by decide⟩

/-! ### C2 — stop-loss preemption (`filter_need_to_stop_loss` +
`send_cancel_close_orders` in `bot.step`) -/

lemma exceptBind_ok {α β : Type} (a : α) (f : α → Except Unit β) :
    (Except.ok a >>= f) = f a := rfl

lemma exceptBind_error {α β : Type} (e : Unit) (f : α → Except Unit β) :
    ((Except.error e : Except Unit α) >>= f) = .error e := rfl

lemma exceptPure {β : Type} (b : β) : (pure b : Except Unit β) = .ok b := rfl

lemma filterE_mem {pred : TradingCall → Except Unit Bool} :
    ∀ {l r : List TradingCall} {c : TradingCall},
      filterE pred l = .ok r → c ∈ l → pred c = .ok true → c ∈ r := by
  intro l
  induction l with
  | nil =>
    intro r c _ hc
    cases hc
  | cons t ts ih =>
    intro r c hfil hc htrue
    rcases List.mem_cons.mp hc with rfl | hmem
    · rw [filterE, htrue] at hfil
      cases hrest : filterE pred ts with
      | error e =>
        rw [hrest] at hfil
        simp only [exceptBind_ok, exceptBind_error] at hfil
        cases hfil
      | ok rest =>
        rw [hrest] at hfil
        simp only [exceptBind_ok, exceptPure] at hfil
        cases hfil
        simp
    · cases hb : pred t with
      | error e =>
        rw [filterE, hb] at hfil
        simp only [exceptBind_error] at hfil
        cases hfil
      | ok b =>
        cases hrest : filterE pred ts with
        | error e =>
          rw [filterE, hb, hrest] at hfil
          simp only [exceptBind_ok, exceptBind_error] at hfil
          cases hfil
        | ok rest =>
          rw [filterE, hb, hrest] at hfil
          simp only [exceptBind_ok, exceptPure] at hfil
          cases hfil
          have hcr : c ∈ rest := ih hrest hmem htrue
          cases b with
          | true => exact List.mem_cons_of_mem t hcr
          | false => exact hcr

lemma mapActs_mem (f : TradingCall → TradingCall × List BotAction)
    {l : List TradingCall} {c : TradingCall} (hc : c ∈ l) :
    (f c).1 ∈ (mapActs f l).1 ∧ (f c).2 ⊆ (mapActs f l).2 := by
  induction l with
  | nil => cases hc
  | cons t ts ih =>
    rcases List.mem_cons.mp hc with rfl | hmem
    · exact ⟨List.mem_cons_self _ _, List.subset_append_left _ _⟩
    · rcases ih hmem with ⟨h1, h2⟩
      exact ⟨List.mem_cons_of_mem _ h1, h2.trans (List.subset_append_right _ _)⟩

/-- C2: for a call pending exit (`close_order` set, not completed) whose
current price is strictly below `stop_loss`, the spot step's stop-loss
phase keeps it — independently of the exit order's status — and the cancel
body issues both the cancellation of the resting exit order and a `MARKET`
order for the full original exit quantity `origQty`, and (the market order
succeeding) marks the call completed with reason `"stop loss"`; the result
and actions land in the phase's output. -/
theorem C2_stop_loss_preemption (gw : Gateway) (store : List TradingCall)
    (c : TradingCall) (co : Order) (p : ℚ) (kept : List TradingCall) (mo : Order)
    (hc : c ∈ store) (hco : c.close_order = some co) (hcomp : c.completed = false)
    (hp : gw.avg_price c.symbol = .ok p) (hlt : p < c.stop_loss)
    (hfil : Spot.filter_need_to_stop_loss gw
      (Spot.get_pending_closing_limit_orders store) = .ok kept)
    (hmkt : gw.new_order (Spot.market_close_params c co) = .ok mo) :
    c ∈ kept ∧
    (Spot.send_cancel_close_order gw "stop loss" c).1.completed = true ∧
    (Spot.send_cancel_close_order gw "stop loss" c).1.reason = some "stop loss" ∧
    BotAction.cancelOrder "send_cancel_close_orders" c.symbol co.orderId
      ∈ (Spot.send_cancel_close_order gw "stop loss" c).2 ∧
    BotAction.newOrder "send_cancel_close_orders" (Spot.market_close_params c co)
      ∈ (Spot.send_cancel_close_order gw "stop loss" c).2 ∧
    (Spot.market_close_params c co).type = "MARKET" ∧
    (Spot.market_close_params c co).quantity = co.origQty ∧
    (∀ l, c ∈ l →
      (Spot.send_cancel_close_order gw "stop loss" c).1
        ∈ (Spot.send_cancel_close_orders gw "stop loss" l).1 ∧
      (Spot.send_cancel_close_order gw "stop loss" c).2
        ⊆ (Spot.send_cancel_close_orders gw "stop loss" l).2) := by
  have hkept : c ∈ kept := by
    apply filterE_mem hfil
    · exact List.mem_filter.mpr ⟨hc, by simp [hco, hcomp]⟩
    · simp [Spot.stop_loss_pred, hp, hlt]
  have hbody :
      Spot.send_cancel_close_order gw "stop loss" c =
        ({ c with completed := true, reason := some "stop loss" },
         [BotAction.cancelOrder "send_cancel_close_orders" c.symbol co.orderId,
          BotAction.newOrder "send_cancel_close_orders" (Spot.market_close_params c co)]) := by
    simp only [Spot.send_cancel_close_order, hco, hmkt]
    rfl
  refine ⟨hkept, ?_, ?_, ?_, ?_, rfl, rfl, ?_⟩
  · rw [hbody]
  · rw [hbody]
  · rw [hbody]; simp
  · rw [hbody]; simp
  · intro l hl
    exact mapActs_mem (Spot.send_cancel_close_order gw "stop loss") hl

/-- A resting exit order, still `NEW`, original quantity `1.5`. -/
def ord2 : Order := ⟨22, "NEW", some 0, none, mkRat 3 2, mkRat 3 2⟩

/-- An `EXIT_PENDING` call with `stop_loss = 100`. -/
def call2 : TradingCall :=
  { id := 2, symbol := "LTCUSDT", side := "BUY", entry := [100, 102],
    stop_loss := 100, targets := [104, 106, 108, 110], timestamp := 0,
    open_order := some ⟨21, "FILLED", some 0, none, mkRat 3 2, mkRat 3 2⟩,
    close_order := some ord2, take_profit_order := none, stop_loss_order := none,
    completed := false, closed := false, reason := none, bragged := false }

unseal Rat.inv Rat.mul Rat.add Rat.sub in
/-- C2 witness: `stop_loss = 100`, reported price `95`, exit order status
still `NEW` — instantiating the stop-loss preemption theorem. -/
theorem C2_stop_loss_preemption_witness :
    ord2.status = "NEW" ∧ ((95 : ℚ) < 100) ∧
    (call2 ∈ ([call2] : List TradingCall) ∧
     (Spot.send_cancel_close_order (constGateway 95 infoTick ord2 [] 1000)
        "stop loss" call2).1.completed = true ∧
     (Spot.send_cancel_close_order (constGateway 95 infoTick ord2 [] 1000)
        "stop loss" call2).1.reason = some "stop loss" ∧
     BotAction.cancelOrder "send_cancel_close_orders" call2.symbol ord2.orderId
       ∈ (Spot.send_cancel_close_order (constGateway 95 infoTick ord2 [] 1000)
           "stop loss" call2).2 ∧
     BotAction.newOrder "send_cancel_close_orders" (Spot.market_close_params call2 ord2)
       ∈ (Spot.send_cancel_close_order (constGateway 95 infoTick ord2 [] 1000)
           "stop loss" call2).2 ∧
     (Spot.market_close_params call2 ord2).type = "MARKET" ∧
     (Spot.market_close_params call2 ord2).quantity = ord2.origQty ∧
     (∀ l, call2 ∈ l →
       (Spot.send_cancel_close_order (constGateway 95 infoTick ord2 [] 1000)
          "stop loss" call2).1
         ∈ (Spot.send_cancel_close_orders (constGateway 95 infoTick ord2 [] 1000)
             "stop loss" l).1 ∧
       (Spot.send_cancel_close_order (constGateway 95 infoTick ord2 [] 1000)
          "stop loss" call2).2
         ⊆ (Spot.send_cancel_close_orders (constGateway 95 infoTick ord2 [] 1000)
             "stop loss" l).2)) :=
  ⟨rfl, by norm_num,
   C2_stop_loss_preemption (constGateway 95 infoTick ord2 [] 1000) [call2] call2 ord2 95
     [call2] ord2 (List.mem_singleton.mpr rfl) rfl rfl rfl (by norm_num [call2])
     (by decide) rfl⟩

/-! ### C5 — entry-order expiry (`filter_expired_open_orders` +
`send_cancel_open_orders`, both variants) -/

/-- C5 (amended): a call whose entry order is still `NEW` and older than
the threshold is selected by the expiry filter; cancelling it then marks
the call closed only when the cancellation succeeds — the spot variant with
reason `"Open Order took too long to fill"` (not "entry order expired"),
the futures variant with no reason column — and a failed cancellation
leaves the call entirely unmodified, to be retried next step. -/
theorem C5_entry_expiry (gw : Gateway) (t : TradingCall) (oo : Order)
    (now h : Int) (ts : Nat) (r : Order)
    (hoo : t.open_order = some oo) (hst : oo.status = "NEW")
    (hts : pyOr oo.time oo.transactTime = some ts) :
    (Spot.filter_expired_open_orders now h [t] =
      .ok (if 3600 * h < now - ((ts / 1000 : Nat) : Int) then [t] else [])) ∧
    (gw.cancel_order t.symbol oo.orderId = .ok r →
      Spot.send_cancel_open_order gw t =
        ({ t with
            completed := true
            reason := some "Open Order took too long to fill" },
         [.cancelOrder "send_cancel_open_orders" t.symbol oo.orderId])) ∧
    (gw.cancel_order t.symbol oo.orderId = .error () →
      Spot.send_cancel_open_order gw t =
        (t, [.cancelOrder "send_cancel_open_orders" t.symbol oo.orderId])) ∧
    (gw.cancel_order t.symbol oo.orderId = .ok r →
      Futures.send_cancel_open_order gw t =
        ({ t with
            open_order := some r
            closed := true },
         [.cancelOrder "send_cancel_open_orders" t.symbol oo.orderId])) ∧
    (gw.cancel_order t.symbol oo.orderId = .error () →
      Futures.send_cancel_open_order gw t =
        (t, [.cancelOrder "send_cancel_open_orders" t.symbol oo.orderId])) := by
  refine ⟨?_, ?_, ?_, ?_, ?_⟩
  · have hpred : (fun tc : TradingCall =>
        match tc.open_order with
        | none => Except.error ()
        | some oo => orderExpired now h oo) t
        = .ok (decide (3600 * h < now - ((ts / 1000 : Nat) : Int))) := by
      simp [hoo, orderExpired, hst, hts]
    rw [Spot.filter_expired_open_orders, filterE_singleton _ _ _ hpred]
    simp only [decide_eq_true_eq]
  · intro hcan
    simp only [Spot.send_cancel_open_order, hoo, hcan]
  · intro hcan
    simp only [Spot.send_cancel_open_order, hoo, hcan]
  · intro hcan
    simp only [Futures.send_cancel_open_order, hoo, hcan]
  · intro hcan
    simp only [Futures.send_cancel_open_order, hoo, hcan]

/-- A `NEW` entry order created at epoch 1000 ms (a zero `time` would be
falsy for Python's `or` and fall through to the missing `transactTime`). -/
def ord5 : Order := ⟨55, "NEW", some 1000, none, 1, 1⟩

/-- An `ENTRY_PENDING` call holding `ord5`. -/
def call5 : TradingCall :=
  { id := 5, symbol := "LTCUSDT", side := "BUY", entry := [10, 20],
    stop_loss := 5, targets := [50, 60, 100, 110], timestamp := 0,
    open_order := some ord5, close_order := none, take_profit_order := none,
    stop_loss_order := none, completed := false, closed := false,
    reason := none, bragged := false }

/-- A gateway whose cancellations raise. -/
def gwCancelFail : Gateway :=
  { constGateway 50 infoTick ord5 [] 1000 with cancel_order := fun _ _ => .error () }

/-- C5 counterexample: `call5`'s entry order is 25 hours old (threshold 24)
and still `NEW`, so it is selected; but (i) when the cancellation raises the
call is left unmodified - not marked closed, contradicting the claim - and
(ii) when the cancellation succeeds the spot closing reason is
`"Open Order took too long to fill"`, not `"entry order expired"`. -/
theorem C5_counterexample :
    Spot.filter_expired_open_orders (90000 : Int) 24 [call5] = .ok [call5] ∧
    (Spot.send_cancel_open_order gwCancelFail call5).1 = call5 ∧
    call5.completed = false ∧ call5.closed = false ∧
    (Spot.send_cancel_open_order (constGateway 50 infoTick ord5 [] 1000) call5).1.reason =
      some "Open Order took too long to fill" ∧
    (some "Open Order took too long to fill" ≠ some "entry order expired") := by
  refine ⟨by decide, by decide, rfl, rfl, by decide, by decide⟩

/-- C5 witness: instantiating the expiry theorem at `call5`, 25 hours after
creation with a 24-hour threshold. -/
theorem C5_entry_expiry_witness :
    (Spot.filter_expired_open_orders (90000 : Int) 24 [call5] =
      .ok (if 3600 * 24 < (90000 : Int) - ((1000 / 1000 : Nat) : Int) then [call5] else [])) ∧
    ((constGateway 50 infoTick ord5 [] 1000).cancel_order call5.symbol ord5.orderId =
        .ok ord5 →
      Spot.send_cancel_open_order (constGateway 50 infoTick ord5 [] 1000) call5 =
        ({ call5 with
            completed := true
            reason := some "Open Order took too long to fill" },
         [.cancelOrder "send_cancel_open_orders" call5.symbol ord5.orderId])) ∧
    ((constGateway 50 infoTick ord5 [] 1000).cancel_order call5.symbol ord5.orderId =
        .error () →
      Spot.send_cancel_open_order (constGateway 50 infoTick ord5 [] 1000) call5 =
        (call5, [.cancelOrder "send_cancel_open_orders" call5.symbol ord5.orderId])) ∧
    ((constGateway 50 infoTick ord5 [] 1000).cancel_order call5.symbol ord5.orderId =
        .ok ord5 →
      Futures.send_cancel_open_order (constGateway 50 infoTick ord5 [] 1000) call5 =
        ({ call5 with
            open_order := some ord5
            closed := true },
         [.cancelOrder "send_cancel_open_orders" call5.symbol ord5.orderId])) ∧
    ((constGateway 50 infoTick ord5 [] 1000).cancel_order call5.symbol ord5.orderId =
        .error () →
      Futures.send_cancel_open_order (constGateway 50 infoTick ord5 [] 1000) call5 =
        (call5, [.cancelOrder "send_cancel_open_orders" call5.symbol ord5.orderId])) :=
  C5_entry_expiry (constGateway 50 infoTick ord5 [] 1000) call5 ord5 90000 24 1000 ord5
    rfl rfl (by decide)

/-! ### C3 — monotonicity of `completed` / `closed` -/

/-- Both completion flags only ever go from `false` to `true`. -/
def flagsMono (c c' : TradingCall) : Prop :=
  (c.completed = true → c'.completed = true) ∧ (c.closed = true → c'.closed = true)

lemma flagsMono_refl (c : TradingCall) : flagsMono c c := ⟨id, id⟩

lemma flagsMono_trans {a b c : TradingCall} (h1 : flagsMono a b) (h2 : flagsMono b c) :
    flagsMono a c := ⟨fun h => h2.1 (h1.1 h), fun h => h2.2 (h1.2 h)⟩

lemma position_leg_mono (gw : Gateway) (site : String) (params : OrderParams)
    (assign : TradingCall → Order → TradingCall)
    (h : ∀ t o, flagsMono t (assign t o)) (t : TradingCall) :
    flagsMono t (Futures.position_leg gw site params assign t).1 := by
  unfold Futures.position_leg
  repeat' split
  all_goals first
    | exact flagsMono_refl _
    | exact h _ _

lemma position_leg_mono_chain {t0 : TradingCall} (gw : Gateway) (site : String)
    (params : OrderParams) (assign : TradingCall → Order → TradingCall)
    {t : TradingCall} (h0 : flagsMono t0 t)
    (h : ∀ u o, flagsMono u (assign u o)) :
    flagsMono t0 (Futures.position_leg gw site params assign t).1 :=
  flagsMono_trans h0 (position_leg_mono gw site params assign h t)

/-- C3: the closed/completed flag is monotonic under every per-call engine
operation of both variants: each operation either leaves the flag, sets it
to `1`, or writes `1 if old or status == "FILLED" else 0`, which preserves
a previous `1`. -/
theorem C3_closed_monotonic (gw : Gateway) (reason : String) (c : TradingCall) :
    flagsMono c (Spot.send_open_order gw c).1 ∧
    (∀ r, Spot.update_opening_order_status gw c = .ok r → flagsMono c r.1) ∧
    (∀ r, Spot.update_closing_order_status gw c = .ok r → flagsMono c r.1) ∧
    flagsMono c (Spot.send_close_order gw c).1 ∧
    flagsMono c (Spot.send_cancel_open_order gw c).1 ∧
    flagsMono c (Spot.send_cancel_close_order gw reason c).1 ∧
    (∀ r, Futures.send_open_position gw c = .ok r → flagsMono c r.1) ∧
    (∀ r, Futures.update_opening_order_status gw c = .ok r → flagsMono c r.1) ∧
    (∀ r, Futures.update_tp_sl_order_status gw c = .ok r → flagsMono c r.1) ∧
    flagsMono c (Futures.send_cancel_open_order gw c).1 ∧
    flagsMono c (Futures.send_cancel_tpsl_and_close gw c).1 := by
  refine ⟨?_, ?_, ?_, ?_, ?_, ?_, ?_, ?_, ?_, ?_, ?_⟩
  · simp only [Spot.send_open_order]
    repeat' split
    all_goals simp_all [flagsMono]
  · intro r hr
    simp only [Spot.update_opening_order_status] at hr
    repeat' split at hr
    all_goals (try cases hr)
    all_goals simp_all [flagsMono]
  · intro r hr
    simp only [Spot.update_closing_order_status] at hr
    repeat' split at hr
    all_goals (try cases hr)
    all_goals simp_all [flagsMono]
  · simp only [Spot.send_close_order]
    repeat' split
    all_goals simp_all [flagsMono]
  · simp only [Spot.send_cancel_open_order]
    repeat' split
    all_goals simp_all [flagsMono]
  · simp only [Spot.send_cancel_close_order]
    repeat' split
    all_goals simp_all [flagsMono]
  · intro r hr
    simp only [Futures.send_open_position] at hr
    repeat' split at hr
    all_goals (try cases hr)
    all_goals repeat
      first
      | exact flagsMono_refl _
      | refine position_leg_mono_chain _ _ _ _ ?_ (fun _ _ => ⟨fun h => h, fun h => h⟩)
      | exact position_leg_mono _ _ _ _ (fun _ _ => ⟨fun h => h, fun h => h⟩) _
  · intro r hr
    simp only [Futures.update_opening_order_status] at hr
    repeat' split at hr
    all_goals (try cases hr)
    all_goals simp_all [flagsMono]
  · intro r hr
    simp only [Futures.update_tp_sl_order_status] at hr
    repeat' split at hr
    all_goals (try cases hr)
    all_goals simp_all [flagsMono]
  · simp only [Futures.send_cancel_open_order]
    repeat' split
    all_goals simp_all [flagsMono]
  · simp only [Futures.send_cancel_tpsl_and_close]
    repeat' split
    all_goals simp_all [flagsMono]

/-- A call with both flags already set. -/
def call3 : TradingCall :=
  { id := 3, symbol := "LTCUSDT", side := "BUY", entry := [10, 20],
    stop_loss := 5, targets := [50, 60, 100, 110], timestamp := 0,
    open_order := some ord5, close_order := some ord2, take_profit_order := some ord2,
    stop_loss_order := some ord2, completed := true, closed := true,
    reason := none, bragged := false }

/-- C3 witness: a fully closed call stays closed across the operations. -/
theorem C3_closed_monotonic_witness :
    flagsMono call3 (Spot.send_open_order (constGateway 50 infoTick ord5 [] 1000) call3).1 ∧
    flagsMono call3
      (Spot.send_cancel_close_order (constGateway 50 infoTick ord5 [] 1000) "x" call3).1 :=
  ⟨(C3_closed_monotonic (constGateway 50 infoTick ord5 [] 1000) "x" call3).1,
   (C3_closed_monotonic (constGateway 50 infoTick ord5 [] 1000) "x" call3).2.2.2.2.2.1⟩

/-! ### Provenance and counting kit for step-level reasoning -/

lemma runEach_mem_res {f : TradingCall → Except Unit (TradingCall × List BotAction)} :
    ∀ {l : List TradingCall} {t' : TradingCall},
      t' ∈ (runEach f l).1 → ∃ t ∈ l, ∃ acts, f t = .ok (t', acts) := by
  intro l
  induction l with
  | nil =>
    intro t' h
    simp [runEach] at h
  | cons t ts ih =>
    intro t' h
    simp only [runEach] at h
    cases hft : f t with
    | error e =>
      rw [hft] at h
      simp at h
    | ok r =>
      rw [hft] at h
      simp only [List.mem_cons] at h
      rcases h with rfl | h'
      · exact ⟨t, List.mem_cons_self t ts, r.2, by rw [hft]⟩
      · rcases ih h' with ⟨t₀, ht₀, acts, hacts⟩
        exact ⟨t₀, List.mem_cons_of_mem _ ht₀, acts, hacts⟩

lemma runEach_acts_mem {f : TradingCall → Except Unit (TradingCall × List BotAction)} :
    ∀ {l : List TradingCall} {a : BotAction},
      a ∈ (runEach f l).2.1 → ∃ t ∈ l, ∃ r, f t = .ok r ∧ a ∈ r.2 := by
  intro l
  induction l with
  | nil =>
    intro a h
    simp [runEach] at h
  | cons t ts ih =>
    intro a h
    simp only [runEach] at h
    cases hft : f t with
    | error e =>
      rw [hft] at h
      simp at h
    | ok r =>
      rw [hft] at h
      simp only [List.mem_append] at h
      rcases h with h' | h'
      · exact ⟨t, List.mem_cons_self t ts, r, hft, h'⟩
      · rcases ih h' with ⟨t₀, ht₀, r₀, hr₀, ha⟩
        exact ⟨t₀, List.mem_cons_of_mem _ ht₀, r₀, hr₀, ha⟩

lemma runEach_ok_iff (f : TradingCall → Except Unit (TradingCall × List BotAction)) :
    ∀ l : List TradingCall,
      (runEach f l).2.2 = true ↔ ∀ t ∈ l, ∃ r, f t = .ok r := by
  intro l
  induction l with
  | nil => simp [runEach]
  | cons t ts ih =>
    simp only [runEach]
    cases hft : f t with
    | error e =>
      simp only []
      constructor
      · intro h
        cases h
      · intro h
        rcases h t (List.mem_cons_self t ts) with ⟨r, hr⟩
        rw [hft] at hr
        cases hr
    | ok r =>
      simp only []
      rw [ih]
      constructor
      · intro h u hu
        rcases List.mem_cons.mp hu with rfl | hu'
        · exact ⟨r, hft⟩
        · exact h u hu'
      · intro h u hu
        exact h u (List.mem_cons_of_mem _ hu)

lemma mapActs_acts_mem (f : TradingCall → TradingCall × List BotAction) :
    ∀ {l : List TradingCall} {a : BotAction},
      a ∈ (mapActs f l).2 → ∃ t ∈ l, a ∈ (f t).2 := by
  intro l
  induction l with
  | nil =>
    intro a h
    simp [mapActs] at h
  | cons t ts ih =>
    intro a h
    simp only [mapActs, List.mem_append] at h
    rcases h with h' | h'
    · exact ⟨t, List.mem_cons_self t ts, h'⟩
    · rcases ih h' with ⟨t₀, ht₀, ha⟩
      exact ⟨t₀, List.mem_cons_of_mem _ ht₀, ha⟩

lemma saveCall_mem {store : List TradingCall} {c t' : TradingCall}
    (h : t' ∈ saveCall store c) : t' ∈ store ∨ t' = c := by
  rcases List.mem_map.mp h with ⟨x, hx, hfx⟩
  by_cases hid : x.id = c.id
  · right
    rw [← hfx]
    simp [hid]
  · left
    rw [← hfx]
    simpa [hid] using hx

lemma saveAll_mem : ∀ {cs store : List TradingCall} {t' : TradingCall},
    t' ∈ saveAll store cs → t' ∈ store ∨ t' ∈ cs := by
  intro cs
  induction cs with
  | nil =>
    intro store t' h
    exact Or.inl h
  | cons c cs' ih =>
    intro store t' h
    rcases ih h with h' | h'
    · rcases saveCall_mem h' with h'' | h''
      · exact Or.inl h''
      · exact Or.inr (by simp [h''])
    · exact Or.inr (List.mem_cons_of_mem _ h')

lemma countEntryOrders_append (xs ys : List BotAction) :
    countEntryOrders (xs ++ ys) = countEntryOrders xs + countEntryOrders ys :=
  List.countP_append _ _ _

lemma countEntryOrders_mapActs_zero (f : TradingCall → TradingCall × List BotAction)
    (hf : ∀ t, countEntryOrders (f t).2 = 0) (l : List TradingCall) :
    countEntryOrders (mapActs f l).2 = 0 := by
  induction l with
  | nil => rfl
  | cons t ts ih =>
    simp only [mapActs]
    rw [countEntryOrders_append, hf, ih]

lemma countEntryOrders_mapActs_le (f : TradingCall → TradingCall × List BotAction)
    (hf : ∀ t, countEntryOrders (f t).2 ≤ 1) (l : List TradingCall) :
    countEntryOrders (mapActs f l).2 ≤ l.length := by
  induction l with
  | nil =>
    simp [mapActs]
    rfl
  | cons t ts ih =>
    simp only [mapActs, List.length_cons]
    rw [countEntryOrders_append]
    have := hf t
    omega

lemma countEntryOrders_runEach_zero (f : TradingCall → Except Unit (TradingCall × List BotAction))
    (hf : ∀ t r, f t = .ok r → countEntryOrders r.2 = 0) (l : List TradingCall) :
    countEntryOrders (runEach f l).2.1 = 0 := by
  induction l with
  | nil => rfl
  | cons t ts ih =>
    simp only [runEach]
    cases hft : f t with
    | error e => rfl
    | ok r =>
      simp only []
      rw [countEntryOrders_append, hf t r hft, ih]

lemma filterE_length_le (pred : TradingCall → Except Unit Bool) :
    ∀ {l r : List TradingCall}, filterE pred l = .ok r → r.length ≤ l.length := by
  intro l
  induction l with
  | nil =>
    intro r h
    cases h
    simp
  | cons t ts ih =>
    intro r h
    cases hb : pred t with
    | error e =>
      rw [filterE, hb] at h
      simp only [exceptBind_error] at h
      cases h
    | ok b =>
      cases hrest : filterE pred ts with
      | error e =>
        rw [filterE, hb, hrest] at h
        simp only [exceptBind_ok, exceptBind_error] at h
        cases h
      | ok rest =>
        rw [filterE, hb, hrest] at h
        simp only [exceptBind_ok, exceptPure] at h
        cases h
        have := ih hrest
        cases b with
        | true => simpa using Nat.succ_le_succ this
        | false => simpa using Nat.le_succ_of_le this

lemma sortBy_length (le : TradingCall → TradingCall → Bool) :
    ∀ l : List TradingCall, (sortBy le l).length = l.length := by
  have hins : ∀ (t : TradingCall) (l : List TradingCall),
      (insertBy le t l).length = l.length + 1 := by
    intro t l
    induction l with
    | nil => rfl
    | cons x xs ih =>
      simp only [insertBy]
      split
      · rfl
      · simp [ih]
  intro l
  induction l with
  | nil => rfl
  | cons t ts ih => simp [sortBy, hins, ih]

lemma fetch_unseen_length_le (store : List TradingCall) (now : Int)
    (latest_first : Bool) (limit : Nat) (lookback_hours : Int) :
    (Spot.fetch_unseen_trades store now latest_first limit lookback_hours).length ≤ limit := by
  simp only [Spot.fetch_unseen_trades]
  exact (List.length_take_le _ _)

/-- All actions in the list are order-status observations. -/
def onlyQueries (acts : List BotAction) : Prop :=
  ∀ a ∈ acts, ∃ o, a = BotAction.queryResp o

lemma onlyQueries_nil : onlyQueries [] := by
  intro a ha
  cases ha

lemma onlyQueries_single (o : Order) : onlyQueries [BotAction.queryResp o] := by
  intro a ha
  rw [List.mem_singleton.mp ha]
  exact ⟨o, rfl⟩

lemma onlyQueries_pair (o₁ o₂ : Order) :
    onlyQueries [BotAction.queryResp o₁, BotAction.queryResp o₂] := by
  intro a ha
  rcases List.mem_cons.mp ha with rfl | ha'
  · exact ⟨o₁, rfl⟩
  · rw [List.mem_singleton.mp ha']
    exact ⟨o₂, rfl⟩

lemma update_open_onlyQueries (gw : Gateway) (t : TradingCall)
    (r : TradingCall × List BotAction)
    (h : Spot.update_opening_order_status gw t = .ok r) : onlyQueries r.2 := by
  simp only [Spot.update_opening_order_status] at h
  repeat' split at h
  all_goals (try cases h)
  all_goals exact onlyQueries_single _

lemma update_close_onlyQueries (gw : Gateway) (t : TradingCall)
    (r : TradingCall × List BotAction)
    (h : Spot.update_closing_order_status gw t = .ok r) : onlyQueries r.2 := by
  simp only [Spot.update_closing_order_status] at h
  repeat' split at h
  all_goals (try cases h)
  all_goals exact onlyQueries_single _

lemma fut_update_open_onlyQueries (gw : Gateway) (t : TradingCall)
    (r : TradingCall × List BotAction)
    (h : Futures.update_opening_order_status gw t = .ok r) : onlyQueries r.2 := by
  simp only [Futures.update_opening_order_status] at h
  repeat' split at h
  all_goals (try cases h)
  all_goals exact onlyQueries_single _

lemma fut_update_tpsl_onlyQueries (gw : Gateway) (t : TradingCall)
    (r : TradingCall × List BotAction)
    (h : Futures.update_tp_sl_order_status gw t = .ok r) : onlyQueries r.2 := by
  simp only [Futures.update_tp_sl_order_status] at h
  repeat' split at h
  all_goals (try cases h)
  all_goals exact onlyQueries_pair _ _

lemma countEntryOrders_onlyQueries {acts : List BotAction} (h : onlyQueries acts) :
    countEntryOrders acts = 0 := by
  rw [countEntryOrders, List.countP_eq_zero]
  intro a ha
  rcases h a ha with ⟨o, rfl⟩
  simp

lemma countEntry_cancel_open (gw : Gateway) (t : TradingCall) :
    countEntryOrders (Spot.send_cancel_open_order gw t).2 = 0 := by
  simp only [Spot.send_cancel_open_order]
  repeat' split
  all_goals simp [countEntryOrders, List.countP_cons]

lemma countEntry_cancel_close (gw : Gateway) (reason : String) (t : TradingCall) :
    countEntryOrders (Spot.send_cancel_close_order gw reason t).2 = 0 := by
  simp only [Spot.send_cancel_close_order]
  repeat' split
  all_goals simp [countEntryOrders, List.countP_cons]

lemma countEntry_send_close (gw : Gateway) (t : TradingCall) :
    countEntryOrders (Spot.send_close_order gw t).2 = 0 := by
  simp only [Spot.send_close_order]
  repeat' split
  all_goals simp [countEntryOrders, List.countP_cons]

lemma countEntry_send_open_le (gw : Gateway) (t : TradingCall) :
    countEntryOrders (Spot.send_open_order gw t).2 ≤ 1 := by
  simp only [Spot.send_open_order]
  repeat' split
  all_goals simp [countEntryOrders, List.countP_cons]

/-- Every futures step aborts no later than the pending-exit query (which
raises unconditionally), so its only external effects are the entry-order
status observations of its first phase. -/
lemma futures_step_only_queries (gw : Gateway) (now : Int) (store : List TradingCall) :
    (Futures.step gw now store).ok = false ∧
    onlyQueries (Futures.step gw now store).actions := by
  have hacts : ∀ a ∈ (runEach (Futures.update_opening_order_status gw)
      (Futures.get_unfilled_opening_orders store)).2.1, ∃ o, a = BotAction.queryResp o := by
    intro a ha
    rcases runEach_acts_mem ha with ⟨t, _, r, hr, har⟩
    exact fut_update_open_onlyQueries gw t r hr a har
  simp only [Futures.step, Futures.get_unfilled_tpsl_orders]
  split
  · exact ⟨rfl, hacts⟩
  · exact ⟨rfl, hacts⟩

/-- Either a spot step submits no entry order at all, or the balance read
succeeded with `ORDER_SIZE < bal` and the entry count is bounded by the
number of viable trades, itself bounded by `⌊bal / ORDER_SIZE⌋`. -/
lemma spot_step_entry_bound (gw : Gateway) (now : Int) (store : List TradingCall) :
    countEntryOrders (Spot.step gw now store).actions = 0 ∨
    ∃ bal : ℚ, ∃ viable : List TradingCall,
      gw.account_free_usdt = .ok bal ∧ Spot.ORDER_SIZE < bal ∧
      countEntryOrders (Spot.step gw now store).actions ≤ viable.length ∧
      viable.length ≤ (bal / Spot.ORDER_SIZE).floor.toNat := by
  have hz1 : ∀ l, countEntryOrders (runEach (Spot.update_opening_order_status gw) l).2.1 = 0 :=
    fun l => countEntryOrders_runEach_zero _
      (fun t r h => countEntryOrders_onlyQueries (update_open_onlyQueries gw t r h)) l
  have hz2 : ∀ l, countEntryOrders (runEach (Spot.update_closing_order_status gw) l).2.1 = 0 :=
    fun l => countEntryOrders_runEach_zero _
      (fun t r h => countEntryOrders_onlyQueries (update_close_onlyQueries gw t r h)) l
  have hz3 : ∀ l, countEntryOrders (Spot.send_close_orders gw l).2 = 0 :=
    fun l => countEntryOrders_mapActs_zero _ (fun t => countEntry_send_close gw t) l
  have hz4 : ∀ l, countEntryOrders (Spot.send_cancel_open_orders gw l).2 = 0 :=
    fun l => countEntryOrders_mapActs_zero _ (fun t => countEntry_cancel_open gw t) l
  have hz5 : ∀ s l, countEntryOrders (Spot.send_cancel_close_orders gw s l).2 = 0 :=
    fun s l => countEntryOrders_mapActs_zero _ (fun t => countEntry_cancel_close gw s t) l
  have hfl : ∀ (l r : List TradingCall), Spot.filter_viable_trades gw l = .ok r →
      r.length ≤ l.length := fun l r h => filterE_length_le _ h
  simp only [Spot.step]
  repeat' split
  all_goals dsimp only
  all_goals simp only [countEntryOrders_append, hz1, hz2, hz3, hz4, hz5,
    Nat.add_zero, Nat.zero_add]
  all_goals first
    | exact Or.inl trivial
    | exact Or.inl rfl
    | exact Or.inr ⟨_, _, by assumption, by assumption,
        countEntryOrders_mapActs_le _ (fun t => countEntry_send_open_le gw t) _,
        le_trans (hfl _ _ (by assumption)) (fetch_unseen_length_le _ _ _ _ _)⟩

/-- C8: if the balance read of a spot step reports `bal`, the number of
entry orders submitted in that step is at most `⌊bal / ORDER_SIZE⌋`, and
none are submitted when `bal ≤ ORDER_SIZE`; a futures step only ever emits
status queries (it aborts at the pending-exit query before its entry
phase), so it submits no entry orders at all. -/
theorem C8_balance_cap (gw : Gateway) (now : Int) (store : List TradingCall) (bal : ℚ)
    (hbal : gw.account_free_usdt = .ok bal) (h0 : 0 ≤ bal) :
    ((countEntryOrders (Spot.step gw now store).actions : ℤ) ≤ ⌊bal / Spot.ORDER_SIZE⌋) ∧
    (bal ≤ Spot.ORDER_SIZE → countEntryOrders (Spot.step gw now store).actions = 0) ∧
    onlyQueries (Futures.step gw now store).actions := by
  have hq : (0 : ℚ) ≤ bal / Spot.ORDER_SIZE :=
    div_nonneg h0 (by norm_num [Spot.ORDER_SIZE])
  have hfloor0 : (0 : ℤ) ≤ ⌊bal / Spot.ORDER_SIZE⌋ := Int.floor_nonneg.mpr hq
  rcases spot_step_entry_bound gw now store with hz | ⟨bal', viable, hbal', hsz, hle1, hle2⟩
  · refine ⟨?_, fun _ => hz, (futures_step_only_queries gw now store).2⟩
    rw [hz]
    exact_mod_cast hfloor0
  · rw [hbal'] at hbal
    injection hbal with hb
    subst hb
    refine ⟨?_, ?_, (futures_step_only_queries gw now store).2⟩
    · calc (countEntryOrders (Spot.step gw now store).actions : ℤ)
          ≤ (viable.length : ℤ) := by exact_mod_cast hle1
      _ ≤ (((bal' / Spot.ORDER_SIZE).floor.toNat : ℕ) : ℤ) := by exact_mod_cast hle2
      _ = ⌊bal' / Spot.ORDER_SIZE⌋ := Int.toNat_of_nonneg hfloor0
    · intro hle
      exact absurd (lt_of_lt_of_le hsz hle) (lt_irrefl _)

unseal Rat.inv Rat.mul Rat.add Rat.sub in
/-- C8 witness: with free balance 250 the cap is `⌊250/100⌋ = 2`, and the
single-call store leads to exactly one entry order, within the cap. -/
theorem C8_balance_cap_witness :
    ((countEntryOrders (Spot.step (constGateway 50 infoTick ord1 [] 250) 0 [call1]).actions : ℤ)
        ≤ ⌊(250 : ℚ) / Spot.ORDER_SIZE⌋) ∧
    ((250 : ℚ) ≤ Spot.ORDER_SIZE →
      countEntryOrders (Spot.step (constGateway 50 infoTick ord1 [] 250) 0 [call1]).actions = 0) ∧
    onlyQueries (Futures.step (constGateway 50 infoTick ord1 [] 250) 0 [call1]).actions :=
  C8_balance_cap (constGateway 50 infoTick ord1 [] 250) 0 [call1] 250 rfl (by norm_num)

/-! ### C10 — the pending-exit query of the futures variant -/

/-- Model of `get_unfilled_tpsl_orders` as the claim reads it: Python `or` would keep
only its first operand, so the query would filter on take-profit
non-nullness (plus `closed == 0`) alone, and the comprehension would then
test `open_order["status"] == "FILLED"` and — short-circuiting through
`or` — subscript the possibly-null `stop_loss_order` for its status only
when the take-profit status is `FILLED`. Stated only for comparison with
the actual `Futures.get_unfilled_tpsl_orders`. -/
def get_unfilled_tpsl_orders_as_claimed (store : List TradingCall) :
    Except Unit (List TradingCall) :=
  filterE (fun t =>
    match t.open_order with
    | none => .error ()
    | some oo =>
      if oo.status ≠ "FILLED" then .ok false
      else
        match t.take_profit_order with
        | none => .error ()
        | some tpo =>
          if tpo.status ≠ "FILLED" then .ok true
          else
            match t.stop_loss_order with
            | none => .error ()
            | some slo => .ok (slo.status ≠ "FILLED"))
    (store.filter (fun t => t.take_profit_order.isSome && !t.closed))

/-- C10 counterexample: on the empty store — where no call with a non-null
take-profit order exists, so the claimed mechanism (the query returning
such a call and the comprehension subscripting its null stop-loss order)
cannot fire — `get_unfilled_tpsl_orders` still raises. The `TypeError`
comes from boolean coercion of the SQLAlchemy clause while the query is
built, not from the claimed filter/comprehension behaviour, under which
the empty store would yield `.ok []`. -/
theorem C10_counterexample :
    Futures.get_unfilled_tpsl_orders [] = .error () ∧
    get_unfilled_tpsl_orders_as_claimed [] = .ok [] ∧
    Futures.get_unfilled_tpsl_orders [] ≠ get_unfilled_tpsl_orders_as_claimed [] := by
  refine ⟨rfl, rfl, by decide⟩

lemma fut_update_open_preserves (gw : Gateway) (t : TradingCall)
    (r : TradingCall × List BotAction)
    (h : Futures.update_opening_order_status gw t = .ok r) :
    r.1.id = t.id ∧ r.1.closed = t.closed ∧
    r.1.take_profit_order = t.take_profit_order ∧
    r.1.stop_loss_order = t.stop_loss_order := by
  simp only [Futures.update_opening_order_status] at h
  repeat' split at h
  all_goals (try cases h)
  all_goals exact ⟨rfl, rfl, rfl, rfl⟩

/-- C10 (amended): `get_unfilled_tpsl_orders` raises for every store state,
because `or` boolean-coerces its first SQLAlchemy clause operand while the
query is built. Consequently every futures step aborts at the pending-exit
query: it performs only opening-order status observations, places or
cancels nothing, and leaves every call's `closed`, `take_profit_order` and
`stop_loss_order` unchanged — in particular a non-closed call whose
take-profit order is set while its stop-loss order is null (the state left
by a failed stop-loss leg) is never advanced, closed, or repaired. -/
theorem C10_tpsl_query_raises (gw : Gateway) (now : Int) (store : List TradingCall) :
    Futures.get_unfilled_tpsl_orders store = .error () ∧
    (Futures.step gw now store).ok = false ∧
    onlyQueries (Futures.step gw now store).actions ∧
    (∀ t' ∈ (Futures.step gw now store).store, ∃ t ∈ store,
      t'.id = t.id ∧ t'.closed = t.closed ∧
      t'.take_profit_order = t.take_profit_order ∧
      t'.stop_loss_order = t.stop_loss_order) := by
  refine ⟨rfl, (futures_step_only_queries gw now store).1,
    (futures_step_only_queries gw now store).2, ?_⟩
  intro t' ht'
  have hstore : (Futures.step gw now store).store =
      saveAll store (runEach (Futures.update_opening_order_status gw)
        (Futures.get_unfilled_opening_orders store)).1 := by
    simp only [Futures.step, Futures.get_unfilled_tpsl_orders]
    split <;> rfl
  rw [hstore] at ht'
  rcases saveAll_mem ht' with h | h
  · exact ⟨t', h, rfl, rfl, rfl, rfl⟩
  · rcases runEach_mem_res h with ⟨t, ht, acts, hok⟩
    have hsub : t ∈ store := by
      have h2 := List.mem_of_mem_filter ht
      exact List.mem_of_mem_filter h2
    rcases fut_update_open_preserves gw t ((t', acts)) hok with ⟨h1, h2, h3, h4⟩
    exact ⟨t, hsub, h1, h2, h3, h4⟩

/-- The wedged state the claim describes: take-profit leg placed, stop-loss
leg null, entry filled, not closed. -/
def call10 : TradingCall :=
  { id := 10, symbol := "LTCUSDT", side := "BUY", entry := [10, 20],
    stop_loss := 5, targets := [50, 60, 100, 110], timestamp := 0,
    open_order := some ⟨91, "FILLED", some 1000, none, 10, 10⟩,
    close_order := none,
    take_profit_order := some ⟨92, "NEW", some 1000, none, 10, 10⟩,
    stop_loss_order := none, completed := false, closed := false,
    reason := none, bragged := false }

/-- C10 witness: the amended theorem instantiated on a store holding
exactly the wedged call. -/
theorem C10_tpsl_query_raises_witness :
    Futures.get_unfilled_tpsl_orders [call10] = .error () ∧
    (Futures.step (constGateway 50 infoTick ord1 [] 1000) 0 [call10]).ok = false ∧
    onlyQueries (Futures.step (constGateway 50 infoTick ord1 [] 1000) 0 [call10]).actions ∧
    (∀ t' ∈ (Futures.step (constGateway 50 infoTick ord1 [] 1000) 0 [call10]).store,
      ∃ t ∈ [call10],
        t'.id = t.id ∧ t'.closed = t.closed ∧
        t'.take_profit_order = t.take_profit_order ∧
        t'.stop_loss_order = t.stop_loss_order) :=
  C10_tpsl_query_raises (constGateway 50 infoTick ord1 [] 1000) 0 [call10]

/-! ### C4 — exit orders and entry-fill observation -/

lemma cancel_open_not_close (gw : Gateway) (t : TradingCall) (p : OrderParams) :
    BotAction.newOrder "send_close_order" p ∉ (Spot.send_cancel_open_order gw t).2 := by
  simp only [Spot.send_cancel_open_order]
  repeat' split
  all_goals simp

lemma cancel_close_not_close (gw : Gateway) (reason : String) (t : TradingCall)
    (p : OrderParams) :
    BotAction.newOrder "send_close_order" p ∉ (Spot.send_cancel_close_order gw reason t).2 := by
  simp only [Spot.send_cancel_close_order]
  repeat' split
  all_goals simp

lemma send_open_not_close (gw : Gateway) (t : TradingCall) (p : OrderParams) :
    BotAction.newOrder "send_close_order" p ∉ (Spot.send_open_order gw t).2 := by
  simp only [Spot.send_open_order]
  repeat' split
  all_goals simp

/-- A call reaching the spot close-order phase passed the FILLED filter on
its gateway-refreshed entry order: it is the update result of a pending
call whose entry order the gateway reported `FILLED` in this very step. -/
lemma filled_opening_provenance (gw : Gateway) (l : List TradingCall) (t : TradingCall)
    (ht : t ∈ Spot.filter_filled_opening_orders
      (runEach (Spot.update_opening_order_status gw) l).1) :
    ∃ t₀ ∈ l, ∃ oo o acts, t₀.open_order = some oo ∧
      gw.get_order t₀.symbol oo.orderId = .ok o ∧ o.status = "FILLED" ∧
      Spot.update_opening_order_status gw t₀ = .ok (t, acts) := by
  rcases List.mem_filter.mp ht with ⟨hmem, hpred⟩
  rcases runEach_mem_res hmem with ⟨t₀, ht₀, acts, hop⟩
  refine ⟨t₀, ht₀, ?_⟩
  have hop' := hop
  simp only [Spot.update_opening_order_status] at hop'
  repeat' split at hop'
  all_goals (try cases hop')
  all_goals refine ⟨_, _, _, by assumption, by assumption, ?_, hop⟩
  all_goals simp_all

/-- C4 (amended): in the spot variant every close order submitted in a step
is the close order `send_close_order` computes for a specific call `t` that
is the status-update result of a pending-opening call `t₀` whose entry
order the gateway reported `FILLED` during that step; in the futures
variant each leg of `send_open_position` persists its order purely on
placement success — no `FILLED` observation is required, the
take-profit/stop-loss legs being submitted together with the entry
order. -/
theorem C4_exit_after_fill (gw : Gateway) (now : Int) (store : List TradingCall) :
    (∀ p : OrderParams,
      BotAction.newOrder "send_close_order" p ∈ (Spot.step gw now store).actions →
      ∃ t, BotAction.newOrder "send_close_order" p ∈ (Spot.send_close_order gw t).2 ∧
        ∃ t₀ ∈ Spot.get_pending_opening_limit_orders store, ∃ oo o acts,
          t₀.open_order = some oo ∧
          gw.get_order t₀.symbol oo.orderId = .ok o ∧
          o.status = "FILLED" ∧
          Spot.update_opening_order_status gw t₀ = .ok (t, acts)) ∧
    (∀ (site : String) (params : OrderParams)
        (assign : TradingCall → Order → TradingCall) (t : TradingCall)
        (resp confirmed : Order),
      gw.new_order params = .ok resp →
      gw.get_order t.symbol resp.orderId = .ok confirmed →
      Futures.position_leg gw site params assign t =
        (assign t confirmed, [.newOrder site params, .queryResp confirmed])) := by
  have hq1 : ∀ (l : List TradingCall) (a : BotAction),
      a ∈ (runEach (Spot.update_opening_order_status gw) l).2.1 →
      ∃ o, a = BotAction.queryResp o := by
    intro l a ha
    rcases runEach_acts_mem ha with ⟨t, _, r, hr, har⟩
    exact update_open_onlyQueries gw t r hr a har
  have hq2 : ∀ (l : List TradingCall) (a : BotAction),
      a ∈ (runEach (Spot.update_closing_order_status gw) l).2.1 →
      ∃ o, a = BotAction.queryResp o := by
    intro l a ha
    rcases runEach_acts_mem ha with ⟨t, _, r, hr, har⟩
    exact update_close_onlyQueries gw t r hr a har
  constructor
  · intro p hp
    simp only [Spot.step] at hp
    repeat' split at hp
    all_goals dsimp only at hp
    all_goals (try simp only [List.mem_append] at hp)
    all_goals (repeat' rcases hp with hp | hp)
    all_goals first
      | exact (hq1 _ _ hp).elim (fun o ho => BotAction.noConfusion ho)
      | exact (hq2 _ _ hp).elim (fun o ho => BotAction.noConfusion ho)
      | exact (mapActs_acts_mem _ hp).elim
          (fun t ht => absurd ht.2 (cancel_open_not_close gw t p))
      | exact (mapActs_acts_mem _ hp).elim
          (fun t ht => absurd ht.2 (cancel_close_not_close gw _ t p))
      | exact (mapActs_acts_mem _ hp).elim
          (fun t ht => absurd ht.2 (send_open_not_close gw t p))
      | exact (mapActs_acts_mem _ hp).elim
          (fun t ht => (filled_opening_provenance gw _ t ht.1).elim
            (fun t₀ h₀ => h₀.2.elim (fun oo h₁ => h₁.elim (fun o h₂ =>
              h₂.elim (fun acts h₃ =>
                ⟨t, ht.2, t₀, h₀.1, oo, o, acts,
                 h₃.1, h₃.2.1, h₃.2.2.1, h₃.2.2.2⟩)))))
  · intro site params assign t resp confirmed h1 h2
    simp only [Futures.position_leg, h1, h2]

/-- Projection of a leg/position result onto a call field. -/
def exceptCallField (f : TradingCall → Option Order)
    (e : Except Unit (TradingCall × List BotAction)) : Option (Option Order) :=
  match e with
  | .error _ => none
  | .ok r => some (f r.1)

/-- Actions of a fallible operation (empty when it raised). -/
def exceptActs (e : Except Unit (TradingCall × List BotAction)) : List BotAction :=
  match e with
  | .error _ => []
  | .ok r => r.2

/-- An order record the gateway reports as `NEW` for every query. -/
def ordN : Order := ⟨40, "NEW", some 1000, none, 0, 0⟩

/-- A fresh futures call: no orders yet. -/
def call4 : TradingCall :=
  { id := 4, symbol := "LTCUSDT", side := "BUY", entry := [10, 20],
    stop_loss := 5, targets := [50, 60, 100, 110], timestamp := 0,
    open_order := none, close_order := none, take_profit_order := none,
    stop_loss_order := none, completed := false, closed := false,
    reason := none, bragged := false }

unseal Rat.inv Rat.mul Rat.add Rat.sub in
/-- C4 counterexample: running `send_open_position` on a fresh call against
a gateway that only ever reports status `NEW` leaves both exit-order fields
(`take_profit_order`, `stop_loss_order`) non-null although no gateway query
in the run — and none before it, the call being fresh — ever observed
`entry_order.status == FILLED`. -/
theorem C4_counterexample :
    call4.open_order = none ∧ call4.take_profit_order = none ∧
    call4.stop_loss_order = none ∧ ordN.status = "NEW" ∧
    exceptCallField TradingCall.take_profit_order
      (Futures.send_open_position (constGateway 15 infoTick ordN [] 1000) call4)
      = some (some ordN) ∧
    exceptCallField TradingCall.stop_loss_order
      (Futures.send_open_position (constGateway 15 infoTick ordN [] 1000) call4)
      = some (some ordN) ∧
    ((exceptActs (Futures.send_open_position (constGateway 15 infoTick ordN [] 1000) call4)).countP
        (fun a => match a with
          | .queryResp o => o.status == "FILLED"
          | _ => false) = 0) ∧
    ((exceptActs (Futures.send_open_position (constGateway 15 infoTick ordN [] 1000) call4)).countP
        (fun a => match a with
          | .queryResp _ => true
          | _ => false) = 3) := by
  refine ⟨rfl, rfl, rfl, rfl, by decide, by decide, by decide, by decide⟩

/-- The gateway-refreshed entry order of `call4w` (`FILLED`). -/
def ordF : Order := ⟨44, "FILLED", some 1000, none, 10, 10⟩

/-- An `ENTRY_PENDING` spot call whose cached entry order is still `NEW`
but which the gateway will report as `FILLED`. -/
def call4w : TradingCall :=
  { id := 41, symbol := "LTCUSDT", side := "BUY", entry := [10, 20],
    stop_loss := 5, targets := [50, 60, 100, 110], timestamp := 0,
    open_order := some ⟨44, "NEW", some 1000, none, 10, 10⟩,
    close_order := none, take_profit_order := none,
    stop_loss_order := none, completed := false, closed := false,
    reason := none, bragged := false }

/-- The close order the spot step submits for `call4w` at price 50 and
target 110: a GTC LIMIT for the net quantity 10. -/
def params4 : OrderParams :=
  { symbol := "LTCUSDT", side := "SELL", type := "LIMIT", quantity := 10,
    price := some 110, stopPrice := none, timeInForce := some "GTC",
    reduceOnly := none }

unseal Rat.inv Rat.mul Rat.add Rat.sub in
/-- C4 witness: the spot step on `call4w` does submit the close order
`params4`, and the theorem traces it back to a FILLED gateway report;
the futures leg conclusion instantiated on the take-profit leg. -/
theorem C4_exit_after_fill_witness :
    (BotAction.newOrder "send_close_order" params4
      ∈ (Spot.step (constGateway 50 infoTick ordF [] 1000) 0 [call4w]).actions) ∧
    (∃ t, BotAction.newOrder "send_close_order" params4
        ∈ (Spot.send_close_order (constGateway 50 infoTick ordF [] 1000) t).2 ∧
      ∃ t₀ ∈ Spot.get_pending_opening_limit_orders [call4w], ∃ oo o acts,
        t₀.open_order = some oo ∧
        (constGateway 50 infoTick ordF [] 1000).get_order t₀.symbol oo.orderId = .ok o ∧
        o.status = "FILLED" ∧
        Spot.update_opening_order_status (constGateway 50 infoTick ordF [] 1000) t₀
          = .ok (t, acts)) ∧
    (Futures.position_leg (constGateway 50 infoTick ordF [] 1000) "send_open_position.tp"
        params4 (fun t o => { t with take_profit_order := some o }) call4 =
      ({ call4 with take_profit_order := some ordF },
       [.newOrder "send_open_position.tp" params4, .queryResp ordF])) :=
  ⟨by decide,
   (C4_exit_after_fill (constGateway 50 infoTick ordF [] 1000) 0 [call4w]).1 params4
     (by decide),
   (C4_exit_after_fill (constGateway 50 infoTick ordF [] 1000) 0 [call4w]).2
     "send_open_position.tp" params4 (fun t o => { t with take_profit_order := some o })
     call4 ordF ordF rfl rfl⟩

/-! ### C6 — failure handling of gateway calls within a step -/

/-- A comprehension whose fallible predicate raises on some member raises
as a whole, whichever member raises first. -/
lemma filterE_error_of_mem (p : TradingCall → Except Unit Bool) {l : List TradingCall}
    {t : TradingCall} (ht : t ∈ l) (he : p t = .error ()) :
    filterE p l = .error () := by
  induction l with
  | nil => cases ht
  | cons u us ih =>
    rcases List.mem_cons.mp ht with h | h
    · subst h
      simp only [filterE, he]
      rfl
    · cases hu : p u with
      | error e =>
        cases e
        simp only [filterE, hu]
        rfl
      | ok b =>
        simp only [filterE, hu, ih h]
        rfl

/-- C6 (amended): the order placement and cancellation bodies are
try-wrapped — their failure leaves the call unchanged and the step goes
on — and so are the close-order and take-profit/stop-loss expiry
filters, which fall back to the empty selection when their comprehension
raises; the status-refresh queries, by contrast, are unwrapped: one
failing `get_order` for any pending opening call aborts the whole spot
step (only the already-performed status observations happened; no order
is placed or cancelled in the rest of the step), and likewise
`exchange_info` inside `send_open_position` aborts the futures
comprehension. -/
theorem C6_failure_isolation (gw : Gateway) (now : Int) (store : List TradingCall)
    (t : TradingCall) :
    (gw.exchange_info t.symbol = .error () →
      Spot.send_open_order gw t = (t, []) ∧ Spot.send_close_order gw t = (t, []) ∧
      (t.open_order = none → Futures.send_open_position gw t = .error ())) ∧
    ((∀ p, gw.new_order p = .error ()) →
      (Spot.send_open_order gw t).1 = t ∧ (Spot.send_close_order gw t).1 = t) ∧
    (∀ (n h : Int) (trades : List TradingCall), t ∈ trades →
      (t.close_order = none → Spot.filter_expired_close_orders n h trades = []) ∧
      (t.take_profit_order = none →
        Futures.filter_expired_tpsl_orders n h trades = [])) ∧
    ((∃ u ∈ Spot.get_pending_opening_limit_orders store,
        Spot.update_opening_order_status gw u = .error ()) →
      (Spot.step gw now store).ok = false ∧
      onlyQueries (Spot.step gw now store).actions) := by
  refine ⟨?_, ?_, ?_, ?_⟩
  · intro hinfo
    refine ⟨?_, ?_, ?_⟩
    · simp only [Spot.send_open_order, hinfo]
      split <;> rfl
    · simp only [Spot.send_close_order, hinfo]
    · intro hopen
      simp only [Futures.send_open_position, hopen, hinfo]
      rfl
  · intro hall
    constructor
    · simp only [Spot.send_open_order, hall]
      repeat' split
      all_goals rfl
    · simp only [Spot.send_close_order, hall]
      repeat' split
      all_goals rfl
  · intro n h trades hmem
    constructor
    · intro hco
      have hfe : filterE (fun t =>
          match t.close_order with
          | none => .error ()
          | some co => orderExpired n h co) trades = .error () :=
        filterE_error_of_mem _ hmem (by simp [hco])
      simp only [Spot.filter_expired_close_orders, hfe]
    · intro htp
      have hfe : filterE (fun t =>
          match t.take_profit_order with
          | none => .error ()
          | some tpo =>
            if tpo.status ≠ "NEW" then .ok false
            else
              match t.stop_loss_order with
              | none => .error ()
              | some slo =>
                if slo.status ≠ "NEW" then .ok false
                else
                  match pyOr tpo.time tpo.transactTime with
                  | none => .error ()
                  | some ts =>
                    .ok (decide (3600 * h < n - ((ts / 1000 : Nat) : Int)))) trades
          = .error () :=
        filterE_error_of_mem _ hmem (by simp [htp])
      simp only [Futures.filter_expired_tpsl_orders, hfe]
  · intro hex
    have hok : (runEach (Spot.update_opening_order_status gw)
        (Spot.get_pending_opening_limit_orders store)).2.2 = false := by
      rcases hex with ⟨u, hu, herr⟩
      cases hcase : (runEach (Spot.update_opening_order_status gw)
          (Spot.get_pending_opening_limit_orders store)).2.2 with
      | false => rfl
      | true =>
        rcases (runEach_ok_iff _ _).mp hcase u hu with ⟨r, hr⟩
        rw [herr] at hr
        cases hr
    have hq1 : onlyQueries (runEach (Spot.update_opening_order_status gw)
        (Spot.get_pending_opening_limit_orders store)).2.1 := by
      intro a ha
      rcases runEach_acts_mem ha with ⟨u, _, r, hr, har⟩
      exact update_open_onlyQueries gw u r hr a har
    constructor
    · simp only [Spot.step, hok]
      rfl
    · simp only [Spot.step, hok]
      exact hq1

/-- A gateway whose order-status queries raise; prices still report `95`. -/
def gw6 : Gateway :=
  { constGateway 95 infoTick ord2 [] 1000 with get_order := fun _ _ => .error () }

unseal Rat.inv Rat.mul Rat.add Rat.sub in
/-- C6 counterexample: with `call4w` pending opening and `call2` pending
closing and stop-loss-eligible (price 95 < 100), the failing status query
for `call4w` aborts the entire spot step — no action at all is taken, and
`call2` is left untouched — although the stop-loss phase alone would have
cancelled and market-closed `call2`; this contradicts "one call's failure
never aborts the rest of the step". -/
theorem C6_counterexample :
    (Spot.step gw6 0 [call4w, call2]).ok = false ∧
    (Spot.step gw6 0 [call4w, call2]).actions = [] ∧
    (Spot.step gw6 0 [call4w, call2]).store = [call4w, call2] ∧
    Spot.filter_need_to_stop_loss gw6
      (Spot.get_pending_closing_limit_orders [call4w, call2]) = .ok [call2] ∧
    (Spot.send_cancel_close_order gw6 "stop loss" call2).1.completed = true ∧
    (Spot.send_cancel_close_order gw6 "stop loss" call2).2 ≠ [] := by
  refine ⟨by decide, by decide, by decide, by decide, by decide, by decide⟩

unseal Rat.inv Rat.mul Rat.add Rat.sub in
/-- C6 witness: instantiating the failure-isolation theorem on `gw6` and
the two-call store, with `call4w` the failing pending call and `call4`
(null close and take-profit legs) the call on which the try-wrapped
expiry filters fall back to the empty selection. -/
theorem C6_failure_isolation_witness :
    ((∀ p, gw6.new_order p = .error ()) →
      (Spot.send_open_order gw6 call4w).1 = call4w ∧
      (Spot.send_close_order gw6 call4w).1 = call4w) ∧
    (Spot.filter_expired_close_orders 0 48 [call4] = []) ∧
    (Futures.filter_expired_tpsl_orders 0 24 [call4] = []) ∧
    ((Spot.step gw6 0 [call4w, call2]).ok = false ∧
      onlyQueries (Spot.step gw6 0 [call4w, call2]).actions) :=
  ⟨(C6_failure_isolation gw6 0 [call4w, call2] call4w).2.1,
   ((C6_failure_isolation gw6 0 [call4w, call2] call4).2.2.1 0 48 [call4]
      (List.Mem.head _)).1 rfl,
   ((C6_failure_isolation gw6 0 [call4w, call2] call4).2.2.1 0 24 [call4]
      (List.Mem.head _)).2 rfl,
   (C6_failure_isolation gw6 0 [call4w, call2] call4w).2.2.2
     ⟨call4w, by decide, by decide⟩⟩
